import Mathlib

/-!
# Stale green CI munger

A shallow embedding of `mungegithub/mungers/stale-green-ci.go`:

* `Munge` (the retrigger evaluator) re-runs the tests of an approved, mergeable pull request
  whose required status contexts are all green when one of them was set more than
  `staleGreenCIHours` hours ago;
* `isStaleIssueComment` / `commentBeforeLastCI` (the comment classifier) decide whether a
  previously posted re-test comment has been superseded by newer statuses.

Modelling conventions.

* Go `time.Time` values are instants counted in nanoseconds from January 1 of year 1, the zero
  of the seconds count that `time.Time` keeps in a signed 64-bit field; `maxTime` is the last
  instant that field can hold. `time.Duration` is a signed 64-bit nanosecond count. `Time.Sub`
  saturates to the range of `Duration` and `Time.Add` saturates the seconds count, as the Go
  library does.
* `time.Now()` is an ambient effect.  The k-th reading of the clock during one invocation is
  `clock k`; `Munge` reads the clock once per loop iteration that reaches `time.Since`.
* `*github.MungeObject` belongs to another package.  Its methods are taken as fields of a
  record: the queries are functions of the snapshot, and the answers of the two mutating calls
  (`WriteComment`, `WaitForPending`) are part of the record as well.
* The effects of `Munge` are returned as the list of calls it performs, in order.
* Package-level names that are declared in sibling files of package `mungers`
  (`jenkinsBotName`, the label names, `mergeBotComment`) are parameters, collected in `Package`.
* A nil-pointer dereference is a panic; a function that can panic returns `Option`, with
  `none` for the panic.
-/

set_option autoImplicit false

namespace Mungers

/-! ## Package `time` -/

namespace time

/-- An instant, in nanoseconds since January 1 of year 1, 00:00:00 UTC. -/
structure Time where
  ns : Int
  deriving DecidableEq, Repr

/-- A `time.Duration`: a nanosecond count. -/
abbrev Duration := Int

def Nanosecond : Duration := 1
def Microsecond : Duration := 1000 * Nanosecond
def Millisecond : Duration := 1000 * Microsecond
def Second : Duration := 1000 * Millisecond
def Minute : Duration := 60 * Second
def Hour : Duration := 60 * Minute

/-- Smallest value of a `Duration` (`-1 << 63`). -/
def minDuration : Duration := -(2 ^ 63)

/-- Largest value of a `Duration` (`1<<63 - 1`). -/
def maxDuration : Duration := 2 ^ 63 - 1

/-- The method `t.Sub(u)`: the duration `t - u`, saturated to the range of `Duration`. -/
def Time.Sub (t u : Time) : Duration :=
  if t.ns - u.ns < minDuration then minDuration
  else if maxDuration < t.ns - u.ns then maxDuration
  else t.ns - u.ns

/-- Largest value of the seconds count of a `Time` (`1<<63 - 1`). -/
def maxSeconds : Int := 2 ^ 63 - 1

/-- Smallest value of the seconds count of a `Time` (`-1 << 63`). -/
def minSeconds : Int := -(2 ^ 63)

/-- The last instant a `Time` can hold. -/
def maxTime : Time := ⟨maxSeconds * 1000000000 + 999999999⟩

/-- The method `t.sec()`: whole seconds since January 1 of year 1. -/
def Time.sec (t : Time) : Int := t.ns / 1000000000

/-- The method `t.nsec()`: the nanoseconds within the second, from 0 to 999999999. -/
def Time.nsec (t : Time) : Int := t.ns % 1000000000

/-- The method `addSec`: add `d` seconds to the seconds count `ext`, saturating at
`1<<63 - 1` and `-(1<<63 - 1)`. The source tests `(sum > t.ext) == (d > 0)` on the wrapped
sum; for a seconds count in range that fails exactly when a positive `d` takes the sum above
`maxSeconds` or a negative `d` takes it below `minSeconds`. -/
def addSec (ext d : Int) : Int :=
  if d > 0 then
    if ext + d > maxSeconds then maxSeconds else ext + d
  else if d < 0 then
    if ext + d < minSeconds then -maxSeconds else ext + d
  else ext

/-- The method `t.Add(d)`, for a `Time` without monotonic clock reading: the duration is split
into seconds and nanoseconds (Go's `/` and `%` truncate towards zero), the nanoseconds are
normalised, and the seconds are added by `addSec`. (Releases of Go older than the saturating
`addSec` wrap the seconds count instead; the two agree whenever the sum is an instant a `Time`
can hold.) -/
def Time.Add (t : Time) (d : Duration) : Time :=
  let dsec := Int.tdiv d 1000000000
  let nsec := t.nsec + Int.tmod d 1000000000
  if nsec ≥ 1000000000 then
    ⟨addSec t.sec (dsec + 1) * 1000000000 + (nsec - 1000000000)⟩
  else if nsec < 0 then
    ⟨addSec t.sec (dsec - 1) * 1000000000 + (nsec + 1000000000)⟩
  else
    ⟨addSec t.sec dsec * 1000000000 + nsec⟩

/-- The method `t.After(u)`: whether the instant `t` is strictly after `u`. -/
def Time.After (t u : Time) : Bool := decide (u.ns < t.ns)

/-- The function `time.Since(t)`, that is `time.Now().Sub(t)`, at the clock reading `now`. -/
def Since (now t : Time) : Duration := now.Sub t

end time

open time

/-! ## Collaborators -/

/-- The `githubapi.User` fields that matter here. -/
structure User where
  Login : Option String
  deriving DecidableEq, Repr

/-- The `githubapi.IssueComment` fields that matter here; a pointer field is an `Option`. -/
structure IssueComment where
  User : Option User
  Body : Option String
  CreatedAt : Option Time
  deriving DecidableEq, Repr

/-- The methods of `*github.MungeObject` used by the munger.

`IsMergeable` and `IsStatusSuccess` return a pair `(value, ok)`, `GetStatusTime` returns
`(*time.Time, ok)`.  `WriteComment` returns an error (`none` is the nil error) and
`WaitForPending` returns whether the required contexts went pending. `Number` is
`*obj.Issue.Number`. -/
structure MungeObject where
  Number : Int
  IsPR : Bool
  HasLabel : String → Bool
  IsMergeable : Bool × Bool
  IsStatusSuccess : List String → Bool × Bool
  GetStatusTime : String → Option Time × Bool
  WriteComment : String → Option String
  WaitForPending : List String → Bool

/-- Names of package `mungers` that the file uses and that are declared in sibling files. -/
structure Package where
  jenkinsBotName : String
  lgtmLabel : String
  retestNotRequiredLabel : String
  retestNotRequiredDocsOnlyLabel : String
  mergeBotComment : IssueComment → Bool

/-- A call performed by `Munge`, as it appears in the trace of one invocation. -/
inductive Event where
  | WriteComment (body : String)
  | WaitForPending (requiredContexts : List String)
  | Errorf (format : String) (args : List String)
  deriving DecidableEq, Repr

/-! ## The source file -/

def staleGreenCIHours : Int := 96

/-- The constant `greenMsgFormat`. -/
def greenMsgFormat (P : Package) : String :=
  "@" ++ P.jenkinsBotName ++ " test this\n\nTests are more than %d hours old. Re-running tests."

/-- The verb `%d` of `fmt.Sprintf`: every `%d` of the format consumes the next operand and is
replaced by its decimal rendering; all other characters are copied. (The other verbs, and the
diagnostics for missing or extra operands, are not needed for `greenMsgFormat` as long as the
bot name holds no `%`.) -/
def SprintfChars : List Char → List Int → List Char
  | [], _ => []
  | '%' :: 'd' :: rest, a :: args => (toString a).toList ++ SprintfChars rest args
  | c :: rest, args => c :: SprintfChars rest args

def Sprintf (format : String) (args : List Int) : String :=
  String.mk (SprintfChars format.toList args)

/-- The variable `greenMsgBody`. -/
def greenMsgBody (P : Package) : String :=
  Sprintf (greenMsgFormat P) [staleGreenCIHours]

/-- What `Munge` does once it has decided to re-run the tests (the body of the inner `if`). -/
def retrigger (P : Package) (requiredContexts : List String) (obj : MungeObject) : List Event :=
  Event.WriteComment (greenMsgBody P) ::
    match obj.WriteComment (greenMsgBody P) with
    | some _ => [Event.Errorf "Failed to write retrigger old test comment" []]
    | none =>
      Event.WaitForPending requiredContexts ::
        if obj.WaitForPending requiredContexts then []
        else [Event.Errorf "Failed waiting for PR to start testing" []]

/-- The `for _, context := range requiredContexts` loop of `Munge`. `k` counts the clock
readings made so far, the last argument is the part of the list still to scan. -/
def Munge.loop (P : Package) (clock : Nat → Time) (requiredContexts : List String)
    (obj : MungeObject) : Nat → List String → List Event
  | _, [] => []
  | k, context :: rest =>
    match obj.GetStatusTime context with
    | (none, _) =>
      [Event.Errorf "%d: unable to determine time %q context was set"
        [toString obj.Number, context]]
    | (some _, false) =>
      [Event.Errorf "%d: unable to determine time %q context was set"
        [toString obj.Number, context]]
    | (some statusTime, true) =>
      if Since (clock k) statusTime > staleGreenCIHours * Hour then
        retrigger P requiredContexts obj
      else
        Munge.loop P clock requiredContexts obj (k + 1) rest

/-- The method `(*StaleGreenCI).Munge`; `requiredContexts` is what `s.getRetestContexts()`
returns. The result is the trace of the calls made. -/
def Munge (P : Package) (clock : Nat → Time) (requiredContexts : List String)
    (obj : MungeObject) : List Event :=
  if !obj.IsPR then []
  else if !obj.HasLabel P.lgtmLabel then []
  else if obj.HasLabel P.retestNotRequiredLabel
      || obj.HasLabel P.retestNotRequiredDocsOnlyLabel then []
  else if !obj.IsMergeable.1 || !obj.IsMergeable.2 then []
  else if !(obj.IsStatusSuccess requiredContexts).1
      || !(obj.IsStatusSuccess requiredContexts).2 then []
  else Munge.loop P clock requiredContexts obj 0 requiredContexts

/-- The loop of `commentBeforeLastCI`. -/
def commentBeforeLastCI.loop (obj : MungeObject) (commentTime : Time) : List String → Bool
  | [] => true
  | context :: rest =>
    match obj.GetStatusTime context with
    | (none, _) => false
    | (some _, false) => false
    | (some statusTimeP, true) =>
      let statusTime := statusTimeP.Add (30 * Minute)
      if commentTime.After statusTime then false
      else commentBeforeLastCI.loop obj commentTime rest

/-- The function `commentBeforeLastCI`. -/
def commentBeforeLastCI (obj : MungeObject) (comment : IssueComment)
    (requiredContexts : List String) : Bool :=
  if !(obj.IsStatusSuccess requiredContexts).1
      || !(obj.IsStatusSuccess requiredContexts).2 then false
  else
    match comment.CreatedAt with
    | none => false
    | some commentTime => commentBeforeLastCI.loop obj commentTime requiredContexts

/-- The method `(*StaleGreenCI).isStaleIssueComment`; `Retest` is
`mungeopts.RequiredContexts.Retest`. The result is `none` when `*comment.Body` dereferences a
nil pointer. (The verbose log line does not change the result and is left out.) -/
def isStaleIssueComment (P : Package) (Retest : List String) (obj : MungeObject)
    (comment : IssueComment) : Option Bool :=
  if !P.mergeBotComment comment then some false
  else
    match comment.Body with
    | none => none
    | some body =>
      if body != greenMsgBody P then some false
      else some (commentBeforeLastCI obj comment Retest)

/-! ## Reading a trace -/

/-- The bodies passed to `WriteComment`, in call order. -/
def writtenComments : List Event → List String
  | [] => []
  | Event.WriteComment body :: tr => body :: writtenComments tr
  | _ :: tr => writtenComments tr

/-- The arguments passed to `WaitForPending`, in call order. -/
def pendingWaits : List Event → List (List String)
  | [] => []
  | Event.WaitForPending cs :: tr => cs :: pendingWaits tr
  | _ :: tr => pendingWaits tr

/-- The error lines logged, in call order. -/
def loggedErrors : List Event → List (String × List String)
  | [] => []
  | Event.Errorf f as :: tr => (f, as) :: loggedErrors tr
  | _ :: tr => loggedErrors tr

/-! ## Fixtures -/

/-- The names as the other files of package `mungers` declare them. -/
def examplePackage : Package where
  jenkinsBotName := "k8s-ci-robot"
  lgtmLabel := "lgtm"
  retestNotRequiredLabel := "retest-not-required"
  retestNotRequiredDocsOnlyLabel := "retest-not-required-docs-only"
  mergeBotComment := fun c =>
    match c.User with
    | some u => u.Login == some "k8s-merge-robot"
    | none => false

/-- A clock that shows the same instant at every reading. -/
def constClock (now : Time) : Nat → Time := fun _ => now

/-- The instant `h` hours before `now`. -/
def hoursAgo (now : Time) (h : Int) : Time := ⟨now.ns - h * Hour⟩

/-- The instant at which the example evaluations take place. -/
def exampleNow : Time := ⟨1000 * Hour⟩

/-- Status times of the contexts `ci/build` and `ci/test`; no other context has a status. -/
def buildTestTimes (build test : Option Time × Bool) : String → Option Time × Bool :=
  fun c => if c == "ci/build" then build else if c == "ci/test" then test else (none, false)

/-- A pull request with the `lgtm` label and no other label, mergeable, all statuses green,
on which posting a comment and waiting for the tests both succeed. -/
def approvedPR (times : String → Option Time × Bool) : MungeObject where
  Number := 7
  IsPR := true
  HasLabel := fun l => l == "lgtm"
  IsMergeable := (true, true)
  IsStatusSuccess := fun _ => (true, true)
  GetStatusTime := times
  WriteComment := fun _ => none
  WaitForPending := fun _ => true

/-- The pull request of the concrete scenario: `ci/build` was set 100 hours ago and `ci/test`
2 hours ago. -/
def staleBuildPR : MungeObject :=
  approvedPR (buildTestTimes (some (hoursAgo exampleNow 100), true)
    (some (hoursAgo exampleNow 2), true))

/-- The same pull request without the approval label. -/
def unapprovedStalePR : MungeObject :=
  { staleBuildPR with HasLabel := fun _ => false }

/-- The pull request after a re-test: `ci/build` has just been set, `ci/test` 2 hours ago. -/
def retestedPR : MungeObject :=
  approvedPR (buildTestTimes (some exampleNow, true) (some (hoursAgo exampleNow 2), true))

/-- The pull request of the concrete scenario when posting a comment fails. -/
def failingWritePR : MungeObject :=
  { staleBuildPR with WriteComment := fun _ => some "write failed" }

/-- An approved, mergeable, green pull request whose only required context `ci/build` was set
at the instant `t`. -/
def singleContextPR (t : Time) : MungeObject :=
  approvedPR (buildTestTimes (some t, true) (none, false))

/-- A comment by the merge bot with the canonical body, created at the instant `created`. -/
def botComment (created : Time) : IssueComment where
  User := some ⟨some "k8s-merge-robot"⟩
  Body := some (greenMsgBody examplePackage)
  CreatedAt := some created

/-- An approved pull request whose `ci/build` status was set at the current time and whose
`ci/test` status has no known time. -/
def unknownTestPR : MungeObject :=
  approvedPR (buildTestTimes (some exampleNow, true) (none, false))

/-- The pull request of the second concrete scenario: the time of `ci/build` is unknown and
`ci/test` was set 2 hours ago. -/
def unknownBuildPR : MungeObject :=
  approvedPR (buildTestTimes (none, false) (some (hoursAgo exampleNow 2), true))

/-- The pull request of the concrete scenario when the tests do not start in time. -/
def failingWaitPR : MungeObject :=
  { staleBuildPR with WaitForPending := fun _ => false }

/-- The snapshot of `singleContextPR`, for an object that is not a pull request, carries an
opt-out label instead of the approval label, and is not known to be mergeable. -/
def ineligibleObject (t : Time) : MungeObject :=
  { singleContextPR t with
    IsPR := false
    HasLabel := fun l => l == "retest-not-required"
    IsMergeable := (false, false) }

/-! ## Vocabulary of the statements -/

/-- The exact age of a status at a clock reading: now minus timestamp, in nanoseconds. -/
def age (now t : Time) : Int := now.ns - t.ns

/-- The five gates of `Munge`, all passed. -/
structure PassesGates (P : Package) (requiredContexts : List String) (obj : MungeObject) :
    Prop where
  isPR : obj.IsPR = true
  approved : obj.HasLabel P.lgtmLabel = true
  retestRequired : obj.HasLabel P.retestNotRequiredLabel = false
  retestRequiredDocs : obj.HasLabel P.retestNotRequiredDocsOnlyLabel = false
  mergeable : obj.IsMergeable = (true, true)
  green : obj.IsStatusSuccess requiredContexts = (true, true)

/-- Two objects that answer every query of the snapshot alike; they may differ in the answers
of the mutating calls `WriteComment` and `WaitForPending`. -/
structure SameSnapshot (obj other : MungeObject) : Prop where
  isPR : obj.IsPR = other.IsPR
  hasLabel : ∀ l, obj.HasLabel l = other.HasLabel l
  isMergeable : obj.IsMergeable = other.IsMergeable
  isStatusSuccess : ∀ cs, obj.IsStatusSuccess cs = other.IsStatusSuccess cs
  getStatusTime : ∀ c, obj.GetStatusTime c = other.GetStatusTime c

/-! ## Arithmetic of the two constants -/

theorem staleThreshold_eq : staleGreenCIHours * Hour = 345600000000000 := by
  decide

theorem graceWindow_eq : 30 * Minute = 1800000000000 := by
  decide

/-- Adding the grace window: the result is never after the exact sum. -/
theorem add_graceWindow_le (t : Time) : (t.Add (30 * Minute)).ns ≤ t.ns + 30 * Minute := by
  have h1 : Int.tdiv 1800000000000 1000000000 = 1800 := by decide
  have h2 : Int.tmod 1800000000000 1000000000 = 0 := by decide
  have h3 : maxSeconds = 9223372036854775807 := by decide
  have h5 : minSeconds = -9223372036854775808 := by decide
  unfold Time.Add
  simp only [graceWindow_eq, h1, h2, Time.nsec, Time.sec, addSec, h3, h5]
  split_ifs <;> simp only [] <;> omega

/-- Adding the grace window is exact when the sum is an instant a `Time` can hold. -/
theorem add_graceWindow_eq (t : Time) (h : t.ns + 30 * Minute ≤ maxTime.ns) :
    (t.Add (30 * Minute)).ns = t.ns + 30 * Minute := by
  have h1 : Int.tdiv 1800000000000 1000000000 = 1800 := by decide
  have h2 : Int.tmod 1800000000000 1000000000 = 0 := by decide
  have h3 : maxSeconds = 9223372036854775807 := by decide
  have h5 : minSeconds = -9223372036854775808 := by decide
  have h4 : maxTime.ns = 9223372036854775807999999999 := by decide
  rw [h4, graceWindow_eq] at h
  unfold Time.Add
  simp only [graceWindow_eq, h1, h2, Time.nsec, Time.sec, addSec, h3, h5]
  split_ifs <;> simp only [] <;> omega

/-- Saturation of `Time.Sub` never changes the comparison with the threshold. -/
theorem since_gt_iff (now t : Time) :
    Since now t > staleGreenCIHours * Hour ↔ age now t > staleGreenCIHours * Hour := by
  rw [staleThreshold_eq]
  unfold Since Time.Sub age
  have hmin : minDuration = -9223372036854775808 := by decide
  have hmax : maxDuration = 9223372036854775807 := by decide
  rw [hmin, hmax]
  constructor
  · intro h
    unfold Duration at *
    split_ifs at h <;> omega
  · intro h
    unfold Duration at *
    split_ifs <;> omega

/-! ## The loop of `Munge`, one iteration at a time -/

theorem loop_cons_known (P : Package) (clock : Nat → Time) (ctxs : List String)
    (obj : MungeObject) (k : Nat) (c : String) (rest : List String) (t : Time)
    (h : obj.GetStatusTime c = (some t, true)) :
    Munge.loop P clock ctxs obj k (c :: rest) =
      if age (clock k) t > staleGreenCIHours * Hour then retrigger P ctxs obj
      else Munge.loop P clock ctxs obj (k + 1) rest := by
  simp only [Munge.loop, h, since_gt_iff]

theorem loop_cons_unknown (P : Package) (clock : Nat → Time) (ctxs : List String)
    (obj : MungeObject) (k : Nat) (c : String) (rest : List String)
    (h : (obj.GetStatusTime c).1 = none ∨ (obj.GetStatusTime c).2 = false) :
    Munge.loop P clock ctxs obj k (c :: rest) =
      [Event.Errorf "%d: unable to determine time %q context was set"
        [toString obj.Number, c]] := by
  rcases hg : obj.GetStatusTime c with ⟨_ | t, _ | _⟩ <;> simp_all [Munge.loop]

/-- A status time is either known, or the iteration that asks for it aborts. -/
theorem statusTime_cases (obj : MungeObject) (c : String) :
    (∃ t, obj.GetStatusTime c = (some t, true)) ∨
      ((obj.GetStatusTime c).1 = none ∨ (obj.GetStatusTime c).2 = false) := by
  rcases hg : obj.GetStatusTime c with ⟨_ | t, _ | _⟩ <;> simp

/-- Contexts whose status is known and not older than the threshold when the loop reaches
them are skipped; each one costs one clock reading. -/
theorem loop_skip_fresh (P : Package) (clock : Nat → Time) (ctxs : List String)
    (obj : MungeObject) (rest : List String) :
    ∀ (pre : List String) (k : Nat),
      (∀ i c, pre[i]? = some c → ∃ t, obj.GetStatusTime c = (some t, true) ∧
        age (clock (k + i)) t ≤ staleGreenCIHours * Hour) →
      Munge.loop P clock ctxs obj k (pre ++ rest) =
        Munge.loop P clock ctxs obj (k + pre.length) rest := by
  intro pre
  induction pre with
  | nil => intro k _; simp
  | cons c pre ih =>
    intro k h
    obtain ⟨t, ht, hage⟩ := h 0 c (by simp)
    have hnot : ¬ age (clock k) t > staleGreenCIHours * Hour := by
      simpa using hage
    rw [List.cons_append, loop_cons_known P clock ctxs obj k c (pre ++ rest) t ht, if_neg hnot,
      ih (k + 1)]
    · congr 1
      simp only [List.length_cons]
      omega
    · intro i d hd
      obtain ⟨u, hu, hage2⟩ := h (i + 1) d (by simpa using hd)
      exact ⟨u, hu, by rwa [show k + 1 + i = k + (i + 1) by omega]⟩

/-- The trace of a re-trigger: the comment is posted once, and the wait happens exactly when
posting succeeded. -/
theorem writtenComments_retrigger (P : Package) (ctxs : List String) (obj : MungeObject) :
    writtenComments (retrigger P ctxs obj) = [greenMsgBody P] := by
  unfold retrigger
  cases obj.WriteComment (greenMsgBody P) <;> cases obj.WaitForPending ctxs <;>
    simp [writtenComments]

theorem pendingWaits_retrigger (P : Package) (ctxs : List String) (obj : MungeObject) :
    pendingWaits (retrigger P ctxs obj) =
      if obj.WriteComment (greenMsgBody P) = none then [ctxs] else [] := by
  unfold retrigger
  cases obj.WriteComment (greenMsgBody P) <;> cases obj.WaitForPending ctxs <;>
    simp [pendingWaits]

/-- With all gates passed, `Munge` is its loop, started at the first clock reading. -/
theorem Munge_of_passesGates (P : Package) (clock : Nat → Time) (ctxs : List String)
    (obj : MungeObject) (h : PassesGates P ctxs obj) :
    Munge P clock ctxs obj = Munge.loop P clock ctxs obj 0 ctxs := by
  simp [Munge, h.isPR, h.approved, h.retestRequired, h.retestRequiredDocs, h.mergeable, h.green]

/-- With a gate failed, `Munge` returns at once. -/
theorem Munge_of_gate_failed (P : Package) (clock : Nat → Time) (ctxs : List String)
    (obj : MungeObject)
    (h : obj.IsPR = false ∨ obj.HasLabel P.lgtmLabel = false ∨
      obj.HasLabel P.retestNotRequiredLabel = true ∨
      obj.HasLabel P.retestNotRequiredDocsOnlyLabel = true ∨
      obj.IsMergeable ≠ (true, true) ∨ obj.IsStatusSuccess ctxs ≠ (true, true)) :
    Munge P clock ctxs obj = [] := by
  unfold Munge
  rcases hm : obj.IsMergeable with ⟨m1, m2⟩
  rcases hs : obj.IsStatusSuccess ctxs with ⟨s1, s2⟩
  rw [hm, hs] at h
  rcases h with h | h | h | h | h | h
  · simp [h]
  · simp [h]
  · simp [h]
  · simp [h]
  · cases m1 <;> cases m2 <;> simp_all
  · cases s1 <;> cases s2 <;> simp_all

/-- The trace of `Munge` is empty or the trace of its loop. -/
theorem Munge_nil_or_loop (P : Package) (clock : Nat → Time) (ctxs : List String)
    (obj : MungeObject) :
    Munge P clock ctxs obj = [] ∨
      (PassesGates P ctxs obj ∧
        Munge P clock ctxs obj = Munge.loop P clock ctxs obj 0 ctxs) := by
  by_cases h : obj.IsPR = false ∨ obj.HasLabel P.lgtmLabel = false ∨
      obj.HasLabel P.retestNotRequiredLabel = true ∨
      obj.HasLabel P.retestNotRequiredDocsOnlyLabel = true ∨
      obj.IsMergeable ≠ (true, true) ∨ obj.IsStatusSuccess ctxs ≠ (true, true)
  · exact Or.inl (Munge_of_gate_failed P clock ctxs obj h)
  · have hp : PassesGates P ctxs obj := by
      simp only [not_or, Bool.not_eq_false, Bool.not_eq_true, ne_eq, not_not] at h
      exact ⟨h.1, h.2.1, h.2.2.1, h.2.2.2.1, h.2.2.2.2.1, h.2.2.2.2.2⟩
    exact Or.inr ⟨hp, Munge_of_passesGates P clock ctxs obj hp⟩

/-- When the loop posts a comment, the context it stopped at is known and stale. -/
theorem loop_written_stale (P : Package) (clock : Nat → Time) (ctxs : List String)
    (obj : MungeObject) :
    ∀ (rest : List String) (k : Nat),
      writtenComments (Munge.loop P clock ctxs obj k rest) ≠ [] →
      ∃ i c t, rest[i]? = some c ∧ obj.GetStatusTime c = (some t, true) ∧
        age (clock (k + i)) t > staleGreenCIHours * Hour := by
  intro rest
  induction rest with
  | nil => intro k h; simp [Munge.loop, writtenComments] at h
  | cons c rest ih =>
    intro k h
    rcases statusTime_cases obj c with ⟨t, ht⟩ | hu
    · rw [loop_cons_known P clock ctxs obj k c rest t ht] at h
      by_cases hs : age (clock k) t > staleGreenCIHours * Hour
      · exact ⟨0, c, t, by simp, ht, by simpa using hs⟩
      · rw [if_neg hs] at h
        obtain ⟨i, d, u, hd, hu, hage⟩ := ih (k + 1) h
        exact ⟨i + 1, d, u, by simpa using hd, hu,
          by rwa [show k + (i + 1) = k + 1 + i by omega]⟩
    · rw [loop_cons_unknown P clock ctxs obj k c rest hu] at h
      simp [writtenComments] at h

theorem mem_writtenComments (body : String) (tr : List Event) :
    body ∈ writtenComments tr ↔ Event.WriteComment body ∈ tr := by
  induction tr with
  | nil => simp [writtenComments]
  | cons e tr ih => cases e <;> simp [writtenComments, ih]

theorem mem_pendingWaits (cs : List String) (tr : List Event) :
    cs ∈ pendingWaits tr ↔ Event.WaitForPending cs ∈ tr := by
  induction tr with
  | nil => simp [pendingWaits]
  | cons e tr ih => cases e <;> simp [pendingWaits, ih]

/-! ## The evaluator: gates -/

/-- C1. If any single gate of `Munge` fails (the object is not a pull request, it lacks the
approval label, it carries one of the two opt-out labels, `IsMergeable` is not (true, known),
or `IsStatusSuccess` of the required contexts is not (true, known)), then `Munge` performs no
write: it calls neither `WriteComment` nor `WaitForPending`. -/
theorem gate_failure_performs_no_write (P : Package) (clock : Nat → Time)
    (requiredContexts : List String) (obj : MungeObject)
    (h : obj.IsPR = false ∨ obj.HasLabel P.lgtmLabel = false ∨
      obj.HasLabel P.retestNotRequiredLabel = true ∨
      obj.HasLabel P.retestNotRequiredDocsOnlyLabel = true ∨
      obj.IsMergeable ≠ (true, true) ∨
      obj.IsStatusSuccess requiredContexts ≠ (true, true)) :
    writtenComments (Munge P clock requiredContexts obj) = [] ∧
      pendingWaits (Munge P clock requiredContexts obj) = [] := by
  rw [Munge_of_gate_failed P clock requiredContexts obj h]
  exact ⟨rfl, rfl⟩

/-- C1 at the pull request whose `ci/build` status is 100 hours old but which has no approval
label. -/
theorem gate_failure_performs_no_write_witness :
    (unapprovedStalePR.IsPR = false ∨
      unapprovedStalePR.HasLabel examplePackage.lgtmLabel = false ∨
      unapprovedStalePR.HasLabel examplePackage.retestNotRequiredLabel = true ∨
      unapprovedStalePR.HasLabel examplePackage.retestNotRequiredDocsOnlyLabel = true ∨
      unapprovedStalePR.IsMergeable ≠ (true, true) ∨
      unapprovedStalePR.IsStatusSuccess ["ci/build", "ci/test"] ≠ (true, true)) ∧
    (writtenComments
        (Munge examplePackage (constClock exampleNow) ["ci/build", "ci/test"]
          unapprovedStalePR) = [] ∧
      pendingWaits
        (Munge examplePackage (constClock exampleNow) ["ci/build", "ci/test"]
          unapprovedStalePR) = []) :=
  ⟨Or.inr (Or.inl (by decide)),
    gate_failure_performs_no_write examplePackage (constClock exampleNow)
      ["ci/build", "ci/test"] unapprovedStalePR (Or.inr (Or.inl (by decide)))⟩

/-! ## The evaluator: when a re-test is requested -/

/-- C2. Whenever `Munge` calls `WriteComment`, `IsStatusSuccess` of the required contexts
reported known-true, and some required context (at position `i` of the list) has a known
status time whose age, now minus timestamp at the clock reading of that iteration, is
strictly greater than 96 hours. -/
theorem retest_requires_green_and_stale (P : Package) (clock : Nat → Time)
    (requiredContexts : List String) (obj : MungeObject)
    (h : writtenComments (Munge P clock requiredContexts obj) ≠ []) :
    obj.IsStatusSuccess requiredContexts = (true, true) ∧
      ∃ i c t, requiredContexts[i]? = some c ∧ obj.GetStatusTime c = (some t, true) ∧
        age (clock i) t > staleGreenCIHours * Hour := by
  rcases Munge_nil_or_loop P clock requiredContexts obj with h0 | ⟨hp, hl⟩
  · rw [h0] at h
    exact absurd rfl h
  · rw [hl] at h
    obtain ⟨i, c, t, hc, ht, hage⟩ :=
      loop_written_stale P clock requiredContexts obj requiredContexts 0 h
    exact ⟨hp.green, i, c, t, hc, ht, by simpa using hage⟩

/-- C2 at the pull request whose `ci/build` status is 100 hours old. -/
theorem retest_requires_green_and_stale_witness :
    writtenComments
        (Munge examplePackage (constClock exampleNow) ["ci/build", "ci/test"] staleBuildPR)
        ≠ [] ∧
    (staleBuildPR.IsStatusSuccess ["ci/build", "ci/test"] = (true, true) ∧
      ∃ i c t, ["ci/build", "ci/test"][i]? = some c ∧
        staleBuildPR.GetStatusTime c = (some t, true) ∧
        age (constClock exampleNow i) t > staleGreenCIHours * Hour) :=
  ⟨by decide,
    retest_requires_green_and_stale examplePackage (constClock exampleNow)
      ["ci/build", "ci/test"] staleBuildPR (by decide)⟩

/-- C3. If every required context has a known status time that is not older than 96 hours
when `Munge` examines it (in particular if it is younger, as after a re-test that moved the
status times to the current time), then `Munge` does nothing: it writes no comment, does not
call `WaitForPending`, and logs no error. This holds whether or not the gates pass. -/
theorem fresh_contexts_noop (P : Package) (clock : Nat → Time)
    (requiredContexts : List String) (obj : MungeObject)
    (h : ∀ i c, requiredContexts[i]? = some c →
      ∃ t, obj.GetStatusTime c = (some t, true) ∧
        age (clock i) t ≤ staleGreenCIHours * Hour) :
    writtenComments (Munge P clock requiredContexts obj) = [] ∧
      pendingWaits (Munge P clock requiredContexts obj) = [] ∧
      loggedErrors (Munge P clock requiredContexts obj) = [] := by
  have hloop : Munge.loop P clock requiredContexts obj 0 requiredContexts = [] := by
    have hskip := loop_skip_fresh P clock requiredContexts obj [] requiredContexts 0
      (by simpa using h)
    rw [List.append_nil] at hskip
    rw [hskip]
    rfl
  rcases Munge_nil_or_loop P clock requiredContexts obj with h0 | ⟨_, hl⟩
  · rw [h0]
    exact ⟨rfl, rfl, rfl⟩
  · rw [hl, hloop]
    exact ⟨rfl, rfl, rfl⟩

/-- C3 at the approved, mergeable, green pull request whose `ci/build` status was set at the
current time and whose `ci/test` status is 2 hours old. -/
theorem fresh_contexts_noop_witness :
    (∀ i c, ["ci/build", "ci/test"][i]? = some c →
      ∃ t, retestedPR.GetStatusTime c = (some t, true) ∧
        age (constClock exampleNow i) t ≤ staleGreenCIHours * Hour) ∧
    (writtenComments
        (Munge examplePackage (constClock exampleNow) ["ci/build", "ci/test"] retestedPR)
        = [] ∧
      pendingWaits
        (Munge examplePackage (constClock exampleNow) ["ci/build", "ci/test"] retestedPR)
        = [] ∧
      loggedErrors
        (Munge examplePackage (constClock exampleNow) ["ci/build", "ci/test"] retestedPR)
        = []) :=
  have hyp : ∀ i c, ["ci/build", "ci/test"][i]? = some c →
      ∃ t, retestedPR.GetStatusTime c = (some t, true) ∧
        age (constClock exampleNow i) t ≤ staleGreenCIHours * Hour := by
    intro i c hc
    match i, hc with
    | 0, hc =>
      obtain rfl : "ci/build" = c := by simpa using hc
      exact ⟨exampleNow, by decide, by decide⟩
    | 1, hc =>
      obtain rfl : "ci/test" = c := by simpa using hc
      exact ⟨hoursAgo exampleNow 2, by decide, by decide⟩
    | n + 2, hc => simp at hc
  ⟨hyp,
    fresh_contexts_noop examplePackage (constClock exampleNow) ["ci/build", "ci/test"]
      retestedPR hyp⟩

/-- C4, as stated, fails when posting the comment fails: the pull request passes all five
gates, `ci/build` is its only context older than 96 hours (100 hours) and `ci/test` is fresh
(2 hours), yet `Munge` never enters the `WaitForPending` step. -/
theorem single_stale_context_wait_counterexample :
    PassesGates examplePackage ["ci/build", "ci/test"] failingWritePR ∧
    failingWritePR.GetStatusTime "ci/build" = (some (hoursAgo exampleNow 100), true) ∧
    age exampleNow (hoursAgo exampleNow 100) = 100 * Hour ∧
    failingWritePR.GetStatusTime "ci/test" = (some (hoursAgo exampleNow 2), true) ∧
    age exampleNow (hoursAgo exampleNow 2) = 2 * Hour ∧
    writtenComments
        (Munge examplePackage (constClock exampleNow) ["ci/build", "ci/test"] failingWritePR)
        = [greenMsgBody examplePackage] ∧
    pendingWaits
        (Munge examplePackage (constClock exampleNow) ["ci/build", "ci/test"] failingWritePR)
        = [] :=
  ⟨⟨by decide, by decide, by decide, by decide, by decide, by decide⟩,
    by decide, by decide, by decide, by decide, by decide, by decide⟩

/-- C4, amended. If the pull request passes all five gates and the required contexts are
`pre ++ c :: post`, where `c` has a known status time older than 96 hours and every context of
`pre` has a known status time not older than 96 hours (so `c` is the first stale context, at
whatever position; nothing is asked of `post`, so it may be all fresh), then `Munge` calls
`WriteComment` exactly once, with the canonical body, and, provided `WriteComment` returns no
error, calls `WaitForPending` exactly once, with the full list of required contexts. -/
theorem single_stale_context_retest (P : Package) (clock : Nat → Time)
    (pre : List String) (c : String) (post : List String) (obj : MungeObject) (t : Time)
    (hg : PassesGates P (pre ++ c :: post) obj)
    (hpre : ∀ i d, pre[i]? = some d →
      ∃ u, obj.GetStatusTime d = (some u, true) ∧ age (clock i) u ≤ staleGreenCIHours * Hour)
    (hc : obj.GetStatusTime c = (some t, true))
    (hstale : age (clock pre.length) t > staleGreenCIHours * Hour) :
    writtenComments (Munge P clock (pre ++ c :: post) obj) = [greenMsgBody P] ∧
      (obj.WriteComment (greenMsgBody P) = none →
        pendingWaits (Munge P clock (pre ++ c :: post) obj) = [pre ++ c :: post]) := by
  have hloop : Munge P clock (pre ++ c :: post) obj = retrigger P (pre ++ c :: post) obj := by
    rw [Munge_of_passesGates P clock _ obj hg,
      loop_skip_fresh P clock _ obj (c :: post) pre 0 (by simpa using hpre),
      loop_cons_known P clock _ obj _ c post t hc, if_pos (by simpa using hstale)]
  rw [hloop, writtenComments_retrigger, pendingWaits_retrigger]
  exact ⟨rfl, fun hw => by rw [if_pos hw]⟩

/-- C4, amended, at the concrete scenario: contexts `ci/build` (set 100 hours ago) and
`ci/test` (set 2 hours ago), approval label present, no opt-out label, mergeable, and a
successful post. -/
theorem single_stale_context_retest_witness :
    PassesGates examplePackage ([] ++ "ci/build" :: ["ci/test"]) staleBuildPR ∧
    (∀ i d, ([] : List String)[i]? = some d →
      ∃ u, staleBuildPR.GetStatusTime d = (some u, true) ∧
        age (constClock exampleNow i) u ≤ staleGreenCIHours * Hour) ∧
    staleBuildPR.GetStatusTime "ci/build" = (some (hoursAgo exampleNow 100), true) ∧
    age (constClock exampleNow ([] : List String).length) (hoursAgo exampleNow 100)
      > staleGreenCIHours * Hour ∧
    (writtenComments
        (Munge examplePackage (constClock exampleNow) ([] ++ "ci/build" :: ["ci/test"])
          staleBuildPR) = [greenMsgBody examplePackage] ∧
      (staleBuildPR.WriteComment (greenMsgBody examplePackage) = none →
        pendingWaits
          (Munge examplePackage (constClock exampleNow) ([] ++ "ci/build" :: ["ci/test"])
            staleBuildPR) = [[] ++ "ci/build" :: ["ci/test"]])) :=
  ⟨⟨by decide, by decide, by decide, by decide, by decide, by decide⟩,
    fun i d hd => by simp at hd,
    by decide, by decide,
    single_stale_context_retest examplePackage (constClock exampleNow) [] "ci/build"
      ["ci/test"] staleBuildPR (hoursAgo exampleNow 100)
      ⟨by decide, by decide, by decide, by decide, by decide, by decide⟩
      (fun i d hd => by simp at hd) (by decide) (by decide)⟩

/-- C5. The staleness test is a strict greater-than on exact durations. For pull requests that
pass all gates with a single required context: a status whose age is exactly 96h0m0s triggers
no re-test (no comment is written), and a status whose age is 96h0m1s triggers it (the
canonical comment is written). -/
theorem staleness_boundary (P : Package) (clock : Nat → Time) (c : String)
    (atThreshold pastThreshold : MungeObject) (t₁ t₂ : Time)
    (hg₁ : PassesGates P [c] atThreshold) (hg₂ : PassesGates P [c] pastThreshold)
    (ht₁ : atThreshold.GetStatusTime c = (some t₁, true))
    (ht₂ : pastThreshold.GetStatusTime c = (some t₂, true))
    (hage₁ : age (clock 0) t₁ = 96 * Hour + 0 * Minute + 0 * Second)
    (hage₂ : age (clock 0) t₂ = 96 * Hour + 0 * Minute + 1 * Second) :
    writtenComments (Munge P clock [c] atThreshold) = [] ∧
      writtenComments (Munge P clock [c] pastThreshold) = [greenMsgBody P] := by
  have h96 : (96 * Hour + 0 * Minute + 0 * Second : Int) = 345600000000000 := by decide
  have h96s : (96 * Hour + 0 * Minute + 1 * Second : Int) = 345601000000000 := by decide
  rw [h96] at hage₁
  rw [h96s] at hage₂
  constructor
  · rw [Munge_of_passesGates P clock [c] atThreshold hg₁,
      loop_cons_known P clock [c] atThreshold 0 c [] t₁ ht₁,
      if_neg (by rw [staleThreshold_eq, hage₁]; decide)]
    rfl
  · rw [Munge_of_passesGates P clock [c] pastThreshold hg₂,
      loop_cons_known P clock [c] pastThreshold 0 c [] t₂ ht₂,
      if_pos (by rw [staleThreshold_eq, hage₂]; decide)]
    exact writtenComments_retrigger P [c] pastThreshold

/-- C5 at two pull requests with the single required context `ci/build`, set exactly 96 hours
ago on the first and 96 hours and one second ago on the second. -/
theorem staleness_boundary_witness :
    PassesGates examplePackage ["ci/build"] (singleContextPR (hoursAgo exampleNow 96)) ∧
    PassesGates examplePackage ["ci/build"]
      (singleContextPR ⟨(hoursAgo exampleNow 96).ns - Second⟩) ∧
    (singleContextPR (hoursAgo exampleNow 96)).GetStatusTime "ci/build"
      = (some (hoursAgo exampleNow 96), true) ∧
    (singleContextPR ⟨(hoursAgo exampleNow 96).ns - Second⟩).GetStatusTime "ci/build"
      = (some ⟨(hoursAgo exampleNow 96).ns - Second⟩, true) ∧
    age (constClock exampleNow 0) (hoursAgo exampleNow 96)
      = 96 * Hour + 0 * Minute + 0 * Second ∧
    age (constClock exampleNow 0) ⟨(hoursAgo exampleNow 96).ns - Second⟩
      = 96 * Hour + 0 * Minute + 1 * Second ∧
    (writtenComments
        (Munge examplePackage (constClock exampleNow) ["ci/build"]
          (singleContextPR (hoursAgo exampleNow 96))) = [] ∧
      writtenComments
        (Munge examplePackage (constClock exampleNow) ["ci/build"]
          (singleContextPR ⟨(hoursAgo exampleNow 96).ns - Second⟩))
        = [greenMsgBody examplePackage]) :=
  ⟨⟨by decide, by decide, by decide, by decide, by decide, by decide⟩,
    ⟨by decide, by decide, by decide, by decide, by decide, by decide⟩,
    by decide, by decide, by decide, by decide,
    staleness_boundary examplePackage (constClock exampleNow) "ci/build"
      (singleContextPR (hoursAgo exampleNow 96))
      (singleContextPR ⟨(hoursAgo exampleNow 96).ns - Second⟩)
      (hoursAgo exampleNow 96) ⟨(hoursAgo exampleNow 96).ns - Second⟩
      ⟨by decide, by decide, by decide, by decide, by decide, by decide⟩
      ⟨by decide, by decide, by decide, by decide, by decide, by decide⟩
      (by decide) (by decide) (by decide) (by decide)⟩

/-! ## The classifier -/

/-- The loop of `commentBeforeLastCI` answers true exactly when every context has a known
status time and the comment was not created after `statusTime.Add(30 * time.Minute)`. -/
theorem commentLoop_eq_true_iff (obj : MungeObject) (created : Time) (ctxs : List String) :
    commentBeforeLastCI.loop obj created ctxs = true ↔
      ∀ c ∈ ctxs, ∃ t, obj.GetStatusTime c = (some t, true) ∧
        created.ns ≤ (t.Add (30 * Minute)).ns := by
  induction ctxs with
  | nil => simp [commentBeforeLastCI.loop]
  | cons c rest ih =>
    rcases hg : obj.GetStatusTime c with ⟨_ | t, _ | _⟩ <;>
      simp [commentBeforeLastCI.loop, hg, Time.After, ih]

theorem commentBeforeLastCI_eq_true_iff (obj : MungeObject) (comment : IssueComment)
    (ctxs : List String) :
    commentBeforeLastCI obj comment ctxs = true ↔
      obj.IsStatusSuccess ctxs = (true, true) ∧
      ∃ created, comment.CreatedAt = some created ∧
        ∀ c ∈ ctxs, ∃ t, obj.GetStatusTime c = (some t, true) ∧
          created.ns ≤ (t.Add (30 * Minute)).ns := by
  unfold commentBeforeLastCI
  rcases hs : obj.IsStatusSuccess ctxs with ⟨_ | _, _ | _⟩ <;>
    rcases hc : comment.CreatedAt with _ | created <;>
    simp [commentLoop_eq_true_iff]

/-- The result of `isStaleIssueComment` on a comment of the bot that has a body. -/
theorem isStaleIssueComment_of_bot (P : Package) (Retest : List String) (obj : MungeObject)
    (comment : IssueComment) (body : String) (hbot : P.mergeBotComment comment = true)
    (hbody : comment.Body = some body) :
    isStaleIssueComment P Retest obj comment =
      some (body == greenMsgBody P && commentBeforeLastCI obj comment Retest) := by
  unfold isStaleIssueComment
  by_cases hb : body = greenMsgBody P <;> simp [hbot, hbody, hb]

/-- Every comment the loop of `Munge` posts has the canonical body. -/
theorem loop_written_canonical (P : Package) (clock : Nat → Time) (ctxs : List String)
    (obj : MungeObject) :
    ∀ (rest : List String) (k : Nat),
      ∀ body ∈ writtenComments (Munge.loop P clock ctxs obj k rest), body = greenMsgBody P := by
  intro rest
  induction rest with
  | nil => intro k body h; simp [Munge.loop, writtenComments] at h
  | cons c rest ih =>
    intro k body h
    rcases statusTime_cases obj c with ⟨t, ht⟩ | hu
    · rw [loop_cons_known P clock ctxs obj k c rest t ht] at h
      by_cases hs : age (clock k) t > staleGreenCIHours * Hour
      · rw [if_pos hs, writtenComments_retrigger] at h
        simpa using h
      · rw [if_neg hs] at h
        exact ih (k + 1) body h
    · rw [loop_cons_unknown P clock ctxs obj k c rest hu] at h
      simp [writtenComments] at h

/-- C6, as stated, fails at the boundary of the grace window. With the single required context
`ci/build`, green and set at a known time, a bot comment with the canonical body created
exactly 30 minutes after the status time is classified stale, and one created 30 minutes and
one second after it is classified not stale: the opposite of what is claimed. -/
theorem grace_window_boundary_counterexample :
    (singleContextPR exampleNow).IsStatusSuccess ["ci/build"] = (true, true) ∧
    (singleContextPR exampleNow).GetStatusTime "ci/build" = (some exampleNow, true) ∧
    examplePackage.mergeBotComment (botComment (exampleNow.Add (30 * Minute))) = true ∧
    examplePackage.mergeBotComment
      (botComment (exampleNow.Add (30 * Minute + 1 * Second))) = true ∧
    isStaleIssueComment examplePackage ["ci/build"] (singleContextPR exampleNow)
      (botComment (exampleNow.Add (30 * Minute))) = some true ∧
    isStaleIssueComment examplePackage ["ci/build"] (singleContextPR exampleNow)
      (botComment (exampleNow.Add (30 * Minute + 1 * Second))) = some false :=
  ⟨by decide, by decide, by decide, by decide, by decide, by decide⟩

/-- C6, amended. For a comment of the bot with the canonical body and a creation time, on a
pull request whose required contexts are reported known-green and whose known status times
are at least 30 minutes before the last instant a `time.Time` can hold (so that
`statusTime.Add(30 * time.Minute)` is the exact sum), the classifier answers stale exactly when
every required context has a known status time and the comment was created at or before that
status time plus 30 minutes; it answers not stale exactly when some required context has no
known status time or the comment was created strictly after its status time plus 30 minutes.
(With one required context of known status time: created exactly at statusTime + 30m is
stale, created one second later is not.) -/
theorem grace_window_classification (P : Package) (Retest : List String) (obj : MungeObject)
    (comment : IssueComment) (created : Time)
    (hbot : P.mergeBotComment comment = true)
    (hbody : comment.Body = some (greenMsgBody P))
    (hcreated : comment.CreatedAt = some created)
    (hgreen : obj.IsStatusSuccess Retest = (true, true))
    (hrange : ∀ c ∈ Retest, ∀ t, obj.GetStatusTime c = (some t, true) →
      t.ns + 30 * Minute ≤ maxTime.ns) :
    (isStaleIssueComment P Retest obj comment = some true ↔
      ∀ c ∈ Retest, ∃ t, obj.GetStatusTime c = (some t, true) ∧
        created.ns ≤ t.ns + 30 * Minute) ∧
    (isStaleIssueComment P Retest obj comment = some false ↔
      ∃ c ∈ Retest, ∀ t, obj.GetStatusTime c = (some t, true) →
        t.ns + 30 * Minute < created.ns) := by
  have hiff := commentBeforeLastCI_eq_true_iff obj comment Retest
  rw [isStaleIssueComment_of_bot P Retest obj comment _ hbot hbody]
  simp only [beq_self_eq_true, Bool.true_and, Option.some.injEq]
  have hstale : commentBeforeLastCI obj comment Retest = true ↔
      ∀ c ∈ Retest, ∃ t, obj.GetStatusTime c = (some t, true) ∧
        created.ns ≤ t.ns + 30 * Minute := by
    rw [hiff]
    constructor
    · rintro ⟨_, created2, hc2, h⟩
      rw [hcreated] at hc2
      cases hc2
      intro c hmem
      obtain ⟨t, ht, hle⟩ := h c hmem
      exact ⟨t, ht, by rwa [add_graceWindow_eq t (hrange c hmem t ht)] at hle⟩
    · intro h
      refine ⟨hgreen, created, hcreated, fun c hmem => ?_⟩
      obtain ⟨t, ht, hle⟩ := h c hmem
      exact ⟨t, ht, by rwa [add_graceWindow_eq t (hrange c hmem t ht)]⟩
  refine ⟨hstale, ?_⟩
  rw [← Bool.not_eq_true, hstale]
  push_neg
  rfl

/-- C6, amended, at the boundary: the single required context `ci/build` set at a known time
and a bot comment created exactly 30 minutes later. -/
theorem grace_window_classification_witness :
    examplePackage.mergeBotComment (botComment (exampleNow.Add (30 * Minute))) = true ∧
    (botComment (exampleNow.Add (30 * Minute))).Body = some (greenMsgBody examplePackage) ∧
    (botComment (exampleNow.Add (30 * Minute))).CreatedAt
      = some (exampleNow.Add (30 * Minute)) ∧
    (singleContextPR exampleNow).IsStatusSuccess ["ci/build"] = (true, true) ∧
    (∀ c ∈ ["ci/build"], ∀ t, (singleContextPR exampleNow).GetStatusTime c = (some t, true) →
      t.ns + 30 * Minute ≤ maxTime.ns) ∧
    ((isStaleIssueComment examplePackage ["ci/build"] (singleContextPR exampleNow)
        (botComment (exampleNow.Add (30 * Minute))) = some true ↔
      ∀ c ∈ ["ci/build"], ∃ t, (singleContextPR exampleNow).GetStatusTime c = (some t, true) ∧
        (exampleNow.Add (30 * Minute)).ns ≤ t.ns + 30 * Minute) ∧
    (isStaleIssueComment examplePackage ["ci/build"] (singleContextPR exampleNow)
        (botComment (exampleNow.Add (30 * Minute))) = some false ↔
      ∃ c ∈ ["ci/build"], ∀ t, (singleContextPR exampleNow).GetStatusTime c = (some t, true) →
        t.ns + 30 * Minute < (exampleNow.Add (30 * Minute)).ns)) :=
  have hrange : ∀ c ∈ ["ci/build"], ∀ t,
      (singleContextPR exampleNow).GetStatusTime c = (some t, true) →
      t.ns + 30 * Minute ≤ maxTime.ns := by
    intro c hc t ht
    obtain rfl : c = "ci/build" := by simpa using hc
    have h2 : (singleContextPR exampleNow).GetStatusTime "ci/build"
        = (some exampleNow, true) := by decide
    rw [h2] at ht
    obtain rfl : exampleNow = t := by simpa using ht
    decide
  ⟨by decide, rfl, rfl, by decide, hrange,
    grace_window_classification examplePackage ["ci/build"] (singleContextPR exampleNow)
      (botComment (exampleNow.Add (30 * Minute))) (exampleNow.Add (30 * Minute))
      (by decide) rfl rfl (by decide) hrange⟩

/-- C7. If `isStaleIssueComment` returns true, then the comment is by the merge bot, its body
is exactly the canonical re-test message, `IsStatusSuccess` of the required contexts is
known-true, the comment has a creation time, and every required context has a known status
time with the comment created not after that status time plus 30 minutes. -/
theorem stale_comment_sound (P : Package) (Retest : List String) (obj : MungeObject)
    (comment : IssueComment)
    (h : isStaleIssueComment P Retest obj comment = some true) :
    P.mergeBotComment comment = true ∧
      comment.Body = some (greenMsgBody P) ∧
      obj.IsStatusSuccess Retest = (true, true) ∧
      ∃ created, comment.CreatedAt = some created ∧
        ∀ c ∈ Retest, ∃ t, obj.GetStatusTime c = (some t, true) ∧
          ¬ (t.ns + 30 * Minute < created.ns) := by
  unfold isStaleIssueComment at h
  by_cases hbot : P.mergeBotComment comment = true
  · rcases hb : comment.Body with _ | body
    · simp [hbot, hb] at h
    · by_cases hbody : body = greenMsgBody P
      · simp only [hbot, hb, hbody, Bool.not_true, Bool.false_eq_true, if_false, bne_self_eq_false,
          Option.some.injEq] at h
        obtain ⟨hgreen, created, hc, hall⟩ :=
          (commentBeforeLastCI_eq_true_iff obj comment Retest).1 h
        refine ⟨hbot, by rw [hbody], hgreen, created, hc, ?_⟩
        intro c hmem
        obtain ⟨t, ht, hle⟩ := hall c hmem
        exact ⟨t, ht, not_lt.2 (le_trans hle (add_graceWindow_le t))⟩
      · simp [hbot, hb, hbody] at h
  · simp [hbot] at h

/-- C7 at a bot comment created one hour before the status of the single required context. -/
theorem stale_comment_sound_witness :
    isStaleIssueComment examplePackage ["ci/build"] (singleContextPR exampleNow)
        (botComment (hoursAgo exampleNow 1)) = some true ∧
    (examplePackage.mergeBotComment (botComment (hoursAgo exampleNow 1)) = true ∧
      (botComment (hoursAgo exampleNow 1)).Body = some (greenMsgBody examplePackage) ∧
      (singleContextPR exampleNow).IsStatusSuccess ["ci/build"] = (true, true) ∧
      ∃ created, (botComment (hoursAgo exampleNow 1)).CreatedAt = some created ∧
        ∀ c ∈ ["ci/build"], ∃ t,
          (singleContextPR exampleNow).GetStatusTime c = (some t, true) ∧
          ¬ (t.ns + 30 * Minute < created.ns)) :=
  ⟨by decide,
    stale_comment_sound examplePackage ["ci/build"] (singleContextPR exampleNow)
      (botComment (hoursAgo exampleNow 1)) (by decide)⟩

/-! ## The evaluator and the classifier together -/

/-- C8. Round trip: if `Munge` posts a comment, then a comment with the posted body, authored
by the bot and created at or after the clock readings of that evaluation, is classified not
stale by `isStaleIssueComment` on the same snapshot and the same required contexts. -/
theorem own_fresh_comment_not_stale (P : Package) (clock : Nat → Time)
    (requiredContexts : List String) (obj : MungeObject) (comment : IssueComment)
    (body : String) (created : Time)
    (hposted : body ∈ writtenComments (Munge P clock requiredContexts obj))
    (hbot : P.mergeBotComment comment = true)
    (hbody : comment.Body = some body)
    (hcreated : comment.CreatedAt = some created)
    (hafter : ∀ i, i < requiredContexts.length → (clock i).ns ≤ created.ns) :
    isStaleIssueComment P requiredContexts obj comment = some false := by
  have hne : writtenComments (Munge P clock requiredContexts obj) ≠ [] :=
    List.ne_nil_of_mem hposted
  rcases Munge_nil_or_loop P clock requiredContexts obj with h0 | ⟨_, hl⟩
  · rw [h0] at hne
    exact absurd rfl hne
  · rw [hl] at hne hposted
    obtain ⟨i, c, t, hc, ht, hage⟩ :=
      loop_written_stale P clock requiredContexts obj requiredContexts 0 hne
    have hi : i < requiredContexts.length := by
      by_contra hcon
      rw [List.getElem?_eq_none (not_lt.1 hcon)] at hc
      cases hc
    have hnow := hafter i hi
    have hnot : commentBeforeLastCI obj comment requiredContexts = false := by
      rw [← Bool.not_eq_true, commentBeforeLastCI_eq_true_iff]
      rintro ⟨_, created2, hc2, hall⟩
      rw [hcreated] at hc2
      cases hc2
      obtain ⟨u, hu, hle⟩ := hall c (List.getElem?_mem hc)
      rw [ht] at hu
      cases hu
      rw [staleThreshold_eq] at hage
      have hadd := le_trans hle (add_graceWindow_le t)
      rw [graceWindow_eq] at hadd
      simp only [zero_add] at hage
      unfold age at hage
      omega
    rw [isStaleIssueComment_of_bot P requiredContexts obj comment body hbot hbody, hnot]
    simp

/-- C8 at the concrete scenario: `Munge` posts on the pull request whose `ci/build` status is
100 hours old, and the bot comment created at the evaluation time is not stale. -/
theorem own_fresh_comment_not_stale_witness :
    greenMsgBody examplePackage ∈ writtenComments
      (Munge examplePackage (constClock exampleNow) ["ci/build", "ci/test"] staleBuildPR) ∧
    examplePackage.mergeBotComment (botComment exampleNow) = true ∧
    (botComment exampleNow).Body = some (greenMsgBody examplePackage) ∧
    (botComment exampleNow).CreatedAt = some exampleNow ∧
    (∀ i, i < ["ci/build", "ci/test"].length →
      (constClock exampleNow i).ns ≤ exampleNow.ns) ∧
    isStaleIssueComment examplePackage ["ci/build", "ci/test"] staleBuildPR
      (botComment exampleNow) = some false :=
  ⟨by decide, by decide, rfl, rfl, fun _ _ => le_refl _,
    own_fresh_comment_not_stale examplePackage (constClock exampleNow)
      ["ci/build", "ci/test"] staleBuildPR (botComment exampleNow)
      (greenMsgBody examplePackage) exampleNow (by decide) (by decide) rfl rfl
      (fun _ _ => le_refl _)⟩

/-! ## Unknown answers -/

/-- C9. `commentBeforeLastCI` returns false whenever `IsStatusSuccess` of the required contexts
is not (true, known), or the comment has no creation time, or the status time of any required
context, at any position of the list and whatever the status times of the contexts before it,
is nil or unknown. -/
theorem classifier_rejects_unknown (obj : MungeObject) (comment : IssueComment)
    (requiredContexts : List String)
    (h : obj.IsStatusSuccess requiredContexts ≠ (true, true) ∨
      comment.CreatedAt = none ∨
      ∃ c ∈ requiredContexts,
        (obj.GetStatusTime c).1 = none ∨ (obj.GetStatusTime c).2 = false) :
    commentBeforeLastCI obj comment requiredContexts = false := by
  rw [← Bool.not_eq_true, commentBeforeLastCI_eq_true_iff]
  rintro ⟨hgreen, created, hc, hall⟩
  rcases h with h | h | ⟨c, hmem, h⟩
  · exact h hgreen
  · rw [h] at hc
    cases hc
  · obtain ⟨t, ht, _⟩ := hall c hmem
    rw [ht] at h
    rcases h with h | h <;> cases h

/-- C9 at a pull request whose second required context `ci/test` has no known status time,
while the first one, `ci/build`, was set after the comment was created. -/
theorem classifier_rejects_unknown_witness :
    (unknownTestPR.IsStatusSuccess ["ci/build", "ci/test"] ≠ (true, true) ∨
      (botComment (hoursAgo exampleNow 1)).CreatedAt = none ∨
      ∃ c ∈ ["ci/build", "ci/test"],
        (unknownTestPR.GetStatusTime c).1 = none ∨
          (unknownTestPR.GetStatusTime c).2 = false) ∧
    commentBeforeLastCI unknownTestPR (botComment (hoursAgo exampleNow 1))
      ["ci/build", "ci/test"] = false :=
  ⟨Or.inr (Or.inr ⟨"ci/test", by decide, Or.inl (by decide)⟩),
    classifier_rejects_unknown unknownTestPR (botComment (hoursAgo exampleNow 1))
      ["ci/build", "ci/test"]
      (Or.inr (Or.inr ⟨"ci/test", by decide, Or.inl (by decide)⟩))⟩

/-- C10. If the pull request passes all five gates and the required contexts are
`pre ++ c :: post`, where the status time of `c` is nil or unknown and every context of `pre`
has a known status time not older than 96 hours (so the first unknown context comes before
every stale one), then `Munge` aborts with the unknown-state error for `c` and posts nothing:
it calls neither `WriteComment` nor `WaitForPending`. -/
theorem unknown_before_stale_aborts (P : Package) (clock : Nat → Time)
    (pre : List String) (c : String) (post : List String) (obj : MungeObject)
    (hg : PassesGates P (pre ++ c :: post) obj)
    (hpre : ∀ i d, pre[i]? = some d →
      ∃ u, obj.GetStatusTime d = (some u, true) ∧ age (clock i) u ≤ staleGreenCIHours * Hour)
    (hc : (obj.GetStatusTime c).1 = none ∨ (obj.GetStatusTime c).2 = false) :
    loggedErrors (Munge P clock (pre ++ c :: post) obj) =
        [("%d: unable to determine time %q context was set", [toString obj.Number, c])] ∧
      writtenComments (Munge P clock (pre ++ c :: post) obj) = [] ∧
      pendingWaits (Munge P clock (pre ++ c :: post) obj) = [] := by
  rw [Munge_of_passesGates P clock _ obj hg,
    loop_skip_fresh P clock _ obj (c :: post) pre 0 (by simpa using hpre),
    loop_cons_unknown P clock _ obj _ c post hc]
  exact ⟨rfl, rfl, rfl⟩

/-- C10 at the concrete scenario: the status time of `ci/build` is unknown and `ci/test` was
set 2 hours ago. -/
theorem unknown_before_stale_aborts_witness :
    PassesGates examplePackage ([] ++ "ci/build" :: ["ci/test"]) unknownBuildPR ∧
    (∀ i d, ([] : List String)[i]? = some d →
      ∃ u, unknownBuildPR.GetStatusTime d = (some u, true) ∧
        age (constClock exampleNow i) u ≤ staleGreenCIHours * Hour) ∧
    ((unknownBuildPR.GetStatusTime "ci/build").1 = none ∨
      (unknownBuildPR.GetStatusTime "ci/build").2 = false) ∧
    (loggedErrors
        (Munge examplePackage (constClock exampleNow) ([] ++ "ci/build" :: ["ci/test"])
          unknownBuildPR) =
        [("%d: unable to determine time %q context was set",
          [toString unknownBuildPR.Number, "ci/build"])] ∧
      writtenComments
        (Munge examplePackage (constClock exampleNow) ([] ++ "ci/build" :: ["ci/test"])
          unknownBuildPR) = [] ∧
      pendingWaits
        (Munge examplePackage (constClock exampleNow) ([] ++ "ci/build" :: ["ci/test"])
          unknownBuildPR) = []) :=
  ⟨⟨by decide, by decide, by decide, by decide, by decide, by decide⟩,
    fun i d hd => by simp at hd,
    Or.inl (by decide),
    unknown_before_stale_aborts examplePackage (constClock exampleNow) [] "ci/build"
      ["ci/test"] unknownBuildPR
      ⟨by decide, by decide, by decide, by decide, by decide, by decide⟩
      (fun i d hd => by simp at hd) (Or.inl (by decide))⟩

/-! ## The shape of a trace -/

/-- The loop of `Munge` ends in one of three ways: it runs off the list, it aborts on an
unknown status time, or it re-triggers the tests. -/
theorem loop_shape (P : Package) (clock : Nat → Time) (ctxs : List String)
    (obj : MungeObject) :
    ∀ (rest : List String) (k : Nat),
      Munge.loop P clock ctxs obj k rest = [] ∨
      (∃ c, Munge.loop P clock ctxs obj k rest =
        [Event.Errorf "%d: unable to determine time %q context was set"
          [toString obj.Number, c]]) ∨
      Munge.loop P clock ctxs obj k rest = retrigger P ctxs obj := by
  intro rest
  induction rest with
  | nil => intro k; exact Or.inl rfl
  | cons c rest ih =>
    intro k
    rcases statusTime_cases obj c with ⟨t, ht⟩ | hu
    · rw [loop_cons_known P clock ctxs obj k c rest t ht]
      by_cases hs : age (clock k) t > staleGreenCIHours * Hour
      · rw [if_pos hs]
        exact Or.inr (Or.inr rfl)
      · rw [if_neg hs]
        exact ih (k + 1)
    · rw [loop_cons_unknown P clock ctxs obj k c rest hu]
      exact Or.inr (Or.inl ⟨c, rfl⟩)

/-- The same three endings for `Munge` itself. -/
theorem Munge_shape (P : Package) (clock : Nat → Time) (ctxs : List String)
    (obj : MungeObject) :
    Munge P clock ctxs obj = [] ∨
      (∃ c, Munge P clock ctxs obj =
        [Event.Errorf "%d: unable to determine time %q context was set"
          [toString obj.Number, c]]) ∨
      Munge P clock ctxs obj = retrigger P ctxs obj := by
  rcases Munge_nil_or_loop P clock ctxs obj with h0 | ⟨_, hl⟩
  · exact Or.inl h0
  · rw [hl]
    exact loop_shape P clock ctxs obj ctxs 0

/-- A trace in which a comment is written is the trace of a re-trigger. -/
theorem Munge_eq_retrigger_of_written (P : Package) (clock : Nat → Time) (ctxs : List String)
    (obj : MungeObject) (h : writtenComments (Munge P clock ctxs obj) ≠ []) :
    Munge P clock ctxs obj = retrigger P ctxs obj := by
  rcases Munge_shape P clock ctxs obj with h0 | ⟨c, hc⟩ | hr
  · rw [h0] at h
    exact absurd rfl h
  · rw [hc] at h
    exact absurd rfl h
  · exact hr

/-- In the trace of a re-trigger, a wait is always preceded by the posting of the comment. -/
theorem retrigger_wait_after_write (P : Package) (ctxs : List String) (obj : MungeObject)
    (i : Nat) (cs : List String)
    (h : (retrigger P ctxs obj)[i]? = some (Event.WaitForPending cs)) :
    ∃ (j : Nat) (body : String), j < i ∧ (retrigger P ctxs obj)[j]? = some (Event.WriteComment body) := by
  match i, h with
  | 0, h => simp [retrigger] at h
  | n + 1, _ => exact ⟨0, greenMsgBody P, Nat.succ_pos n, by simp [retrigger]⟩

/-! ## The evaluator: at most one re-test per invocation -/

/-- C11. One invocation of `Munge`, whatever the snapshot, the clock and the list of required
contexts (several of them may be stale), calls `WriteComment` at most once and
`WaitForPending` at most once, and a call of `WaitForPending` comes after the call of
`WriteComment`. -/
theorem at_most_one_retest (P : Package) (clock : Nat → Time)
    (requiredContexts : List String) (obj : MungeObject) :
    (writtenComments (Munge P clock requiredContexts obj)).length ≤ 1 ∧
      (pendingWaits (Munge P clock requiredContexts obj)).length ≤ 1 ∧
      ∀ i cs, (Munge P clock requiredContexts obj)[i]? = some (Event.WaitForPending cs) →
        ∃ (j : Nat) (body : String), j < i ∧
          (Munge P clock requiredContexts obj)[j]? = some (Event.WriteComment body) := by
  rcases Munge_shape P clock requiredContexts obj with h0 | ⟨c, hc⟩ | hr
  · rw [h0]
    refine ⟨by simp [writtenComments], by simp [pendingWaits], ?_⟩
    intro i cs h
    simp at h
  · rw [hc]
    refine ⟨by simp [writtenComments], by simp [pendingWaits], ?_⟩
    intro i cs h
    match i, h with
    | 0, h => simp at h
    | n + 1, h => simp at h
  · rw [hr, writtenComments_retrigger, pendingWaits_retrigger]
    refine ⟨by simp, by split_ifs <;> simp, ?_⟩
    intro i cs h
    exact retrigger_wait_after_write P requiredContexts obj i cs h

/-- C12. When `Munge` decides to request a re-test, the two steps are sequenced and a failure
aborts what remains: if `WriteComment` returns an error, the trace is the comment and the
error line, with no `WaitForPending`; if it succeeds, `WaitForPending` is called exactly once,
and when the wait fails the trace ends with the error line, with no retry and no second
comment. -/
theorem retrigger_steps_abort_on_failure (P : Package) (clock : Nat → Time)
    (requiredContexts : List String) (obj : MungeObject)
    (hdecides : writtenComments (Munge P clock requiredContexts obj) ≠ []) :
    (obj.WriteComment (greenMsgBody P) ≠ none →
      Munge P clock requiredContexts obj =
        [Event.WriteComment (greenMsgBody P),
          Event.Errorf "Failed to write retrigger old test comment" []]) ∧
    (obj.WriteComment (greenMsgBody P) = none → obj.WaitForPending requiredContexts = true →
      Munge P clock requiredContexts obj =
        [Event.WriteComment (greenMsgBody P), Event.WaitForPending requiredContexts]) ∧
    (obj.WriteComment (greenMsgBody P) = none → obj.WaitForPending requiredContexts = false →
      Munge P clock requiredContexts obj =
        [Event.WriteComment (greenMsgBody P), Event.WaitForPending requiredContexts,
          Event.Errorf "Failed waiting for PR to start testing" []]) := by
  rw [Munge_eq_retrigger_of_written P clock requiredContexts obj hdecides]
  unfold retrigger
  refine ⟨?_, ?_, ?_⟩
  · intro hw
    rcases hwc : obj.WriteComment (greenMsgBody P) with _ | err
    · exact absurd hwc hw
    · rfl
  · intro hw hp
    rw [hw, hp]
    rfl
  · intro hw hp
    rw [hw, hp]
    rfl

/-- C12 at the concrete scenario, in its three variants: the post fails, the post and the wait
succeed, the post succeeds and the wait fails. -/
theorem retrigger_steps_abort_on_failure_witness :
    (writtenComments
        (Munge examplePackage (constClock exampleNow) ["ci/build", "ci/test"] failingWritePR)
        ≠ [] ∧
      failingWritePR.WriteComment (greenMsgBody examplePackage) ≠ none ∧
      Munge examplePackage (constClock exampleNow) ["ci/build", "ci/test"] failingWritePR =
        [Event.WriteComment (greenMsgBody examplePackage),
          Event.Errorf "Failed to write retrigger old test comment" []]) ∧
    (writtenComments
        (Munge examplePackage (constClock exampleNow) ["ci/build", "ci/test"] staleBuildPR)
        ≠ [] ∧
      staleBuildPR.WriteComment (greenMsgBody examplePackage) = none ∧
      staleBuildPR.WaitForPending ["ci/build", "ci/test"] = true ∧
      Munge examplePackage (constClock exampleNow) ["ci/build", "ci/test"] staleBuildPR =
        [Event.WriteComment (greenMsgBody examplePackage),
          Event.WaitForPending ["ci/build", "ci/test"]]) ∧
    (writtenComments
        (Munge examplePackage (constClock exampleNow) ["ci/build", "ci/test"] failingWaitPR)
        ≠ [] ∧
      failingWaitPR.WriteComment (greenMsgBody examplePackage) = none ∧
      failingWaitPR.WaitForPending ["ci/build", "ci/test"] = false ∧
      Munge examplePackage (constClock exampleNow) ["ci/build", "ci/test"] failingWaitPR =
        [Event.WriteComment (greenMsgBody examplePackage),
          Event.WaitForPending ["ci/build", "ci/test"],
          Event.Errorf "Failed waiting for PR to start testing" []]) :=
  ⟨⟨by decide, by decide,
      (retrigger_steps_abort_on_failure examplePackage (constClock exampleNow)
        ["ci/build", "ci/test"] failingWritePR (by decide)).1 (by decide)⟩,
    ⟨by decide, by decide, by decide,
      (retrigger_steps_abort_on_failure examplePackage (constClock exampleNow)
        ["ci/build", "ci/test"] staleBuildPR (by decide)).2.1 (by decide) (by decide)⟩,
    ⟨by decide, by decide, by decide,
      (retrigger_steps_abort_on_failure examplePackage (constClock exampleNow)
        ["ci/build", "ci/test"] failingWaitPR (by decide)).2.2 (by decide) (by decide)⟩⟩

/-! ## The canonical message -/

/-- Characters other than `%` are copied by `SprintfChars`. -/
theorem SprintfChars_no_verb (l r : List Char) (args : List Int) (h : '%' ∉ l) :
    SprintfChars (l ++ r) args = l ++ SprintfChars r args := by
  induction l with
  | nil => rfl
  | cons c l ih =>
    have hc : c ≠ '%' := fun e => h (by simp [e])
    have hl : '%' ∉ l := fun e => h (by simp [e])
    rw [List.cons_append, SprintfChars]
    · rw [ih hl, List.cons_append]
    · intro rest a args2 he
      simp at he
      exact absurd he hc

/-- The rendered message, for a bot name without formatting verbs. -/
theorem greenMsgBody_eq (P : Package) (h : '%' ∉ P.jenkinsBotName.toList) :
    greenMsgBody P =
      "@" ++ P.jenkinsBotName ++
        " test this\n\nTests are more than 96 hours old. Re-running tests." := by
  unfold greenMsgBody Sprintf greenMsgFormat
  apply String.ext
  simp only [String.data_append, String.toList]
  have h2 : '%' ∉ "@".data ++ P.jenkinsBotName.data := by
    simp only [List.mem_append, not_or]
    exact ⟨by decide, h⟩
  rw [SprintfChars_no_verb _ _ _ h2]
  congr 1

/-- A comment whose body is not the canonical message is never stale. -/
theorem isStaleIssueComment_other_body (P : Package) (Retest : List String)
    (obj : MungeObject) (comment : IssueComment) (body : String)
    (hbody : comment.Body = some body) (hne : body ≠ greenMsgBody P) :
    isStaleIssueComment P Retest obj comment = some false := by
  unfold isStaleIssueComment
  cases hbot : P.mergeBotComment comment <;> simp [hbody, hne]

/-- C13. The canonical re-test message is the identity key shared by both components. Every
body `Munge` passes to `WriteComment` is `greenMsgBody`; `greenMsgBody` is the template
rendered with the threshold 96, so it holds the instruction `@<bot> test this` and the literal
number 96 (the bot name, declared in another file, is assumed to hold no `%`); and
`isStaleIssueComment` returns false for every comment whose body is another string. -/
theorem canonical_message_identity (P : Package) (hname : '%' ∉ P.jenkinsBotName.toList) :
    (∀ (clock : Nat → Time) (requiredContexts : List String) (obj : MungeObject),
      ∀ body ∈ writtenComments (Munge P clock requiredContexts obj), body = greenMsgBody P) ∧
    greenMsgBody P =
      "@" ++ P.jenkinsBotName ++
        " test this\n\nTests are more than 96 hours old. Re-running tests." ∧
    (∀ (Retest : List String) (obj : MungeObject) (comment : IssueComment) (body : String),
      comment.Body = some body → body ≠ greenMsgBody P →
        isStaleIssueComment P Retest obj comment = some false) := by
  refine ⟨?_, greenMsgBody_eq P hname, ?_⟩
  · intro clock requiredContexts obj body hb
    rcases Munge_nil_or_loop P clock requiredContexts obj with h0 | ⟨_, hl⟩
    · rw [h0] at hb
      simp [writtenComments] at hb
    · rw [hl] at hb
      exact loop_written_canonical P clock requiredContexts obj requiredContexts 0 body hb
  · intro Retest obj comment body hbody hne
    exact isStaleIssueComment_other_body P Retest obj comment body hbody hne

/-- C13 for the bot name `k8s-ci-robot`. -/
theorem canonical_message_identity_witness :
    '%' ∉ examplePackage.jenkinsBotName.toList ∧
    ((∀ (clock : Nat → Time) (requiredContexts : List String) (obj : MungeObject),
      ∀ body ∈ writtenComments (Munge examplePackage clock requiredContexts obj),
        body = greenMsgBody examplePackage) ∧
    greenMsgBody examplePackage =
      "@" ++ examplePackage.jenkinsBotName ++
        " test this\n\nTests are more than 96 hours old. Re-running tests." ∧
    (∀ (Retest : List String) (obj : MungeObject) (comment : IssueComment) (body : String),
      comment.Body = some body → body ≠ greenMsgBody examplePackage →
        isStaleIssueComment examplePackage Retest obj comment = some false)) :=
  ⟨by decide, canonical_message_identity examplePackage (by decide)⟩

/-! ## The evaluator: which context triggers -/

/-- The loop posts exactly when some context is known and stale while all the contexts before
it are known and fresh, each at the clock reading of its own iteration. -/
theorem loop_posts_iff (P : Package) (clock : Nat → Time) (ctxs : List String)
    (obj : MungeObject) :
    ∀ (rest : List String) (k : Nat),
      writtenComments (Munge.loop P clock ctxs obj k rest) ≠ [] ↔
      ∃ (i : Nat) (c : String) (t : Time), rest[i]? = some c ∧
        obj.GetStatusTime c = (some t, true) ∧
        age (clock (k + i)) t > staleGreenCIHours * Hour ∧
        ∀ (j : Nat) (d : String), j < i → rest[j]? = some d →
          ∃ u, obj.GetStatusTime d = (some u, true) ∧
            age (clock (k + j)) u ≤ staleGreenCIHours * Hour := by
  intro rest
  induction rest with
  | nil =>
    intro k
    simp [Munge.loop, writtenComments]
  | cons c rest ih =>
    intro k
    rcases statusTime_cases obj c with ⟨t, ht⟩ | hu
    · rw [loop_cons_known P clock ctxs obj k c rest t ht]
      by_cases hs : age (clock k) t > staleGreenCIHours * Hour
      · rw [if_pos hs, writtenComments_retrigger]
        constructor
        · intro _
          exact ⟨0, c, t, by simp, ht, by simpa using hs, fun j d hj _ => by omega⟩
        · intro _
          simp
      · rw [if_neg hs, ih (k + 1)]
        constructor
        · rintro ⟨i, d, u, hd, hu, hage, hpre⟩
          refine ⟨i + 1, d, u, by simpa using hd, hu,
            by rwa [show k + (i + 1) = k + 1 + i by omega], ?_⟩
          intro j e hj he
          cases j with
          | zero =>
            obtain rfl : c = e := by simpa using he
            exact ⟨t, ht, by simpa using not_lt.1 hs⟩
          | succ j =>
            have h := hpre j e (by omega) (by simpa using he)
            rwa [show k + 1 + j = k + (j + 1) by omega] at h
        · rintro ⟨i, d, u, hd, hu, hage, hpre⟩
          cases i with
          | zero =>
            obtain rfl : c = d := by simpa using hd
            rw [ht] at hu
            cases hu
            exact absurd (by simpa using hage) hs
          | succ i =>
            refine ⟨i, d, u, by simpa using hd, hu,
              by rwa [show k + 1 + i = k + (i + 1) by omega], ?_⟩
            intro j e hj he
            have h := hpre (j + 1) e (by omega) (by simpa using he)
            rwa [show k + (j + 1) = k + 1 + j by omega] at h
    · rw [loop_cons_unknown P clock ctxs obj k c rest hu]
      constructor
      · intro h
        simp [writtenComments] at h
      · rintro ⟨i, d, u, hd, hu2, _, hpre⟩
        exfalso
        have hknown : ∃ v, obj.GetStatusTime c = (some v, true) := by
          cases i with
          | zero =>
            obtain rfl : c = d := by simpa using hd
            exact ⟨u, hu2⟩
          | succ i =>
            obtain ⟨v, hv, _⟩ := hpre 0 c (by omega) (by simp)
            exact ⟨v, hv⟩
        obtain ⟨v, hv⟩ := hknown
        rw [hv] at hu
        rcases hu with hu | hu <;> cases hu

/-- Posting a comment and posting the canonical comment once are the same thing. -/
theorem Munge_written_iff (P : Package) (clock : Nat → Time) (ctxs : List String)
    (obj : MungeObject) :
    writtenComments (Munge P clock ctxs obj) = [greenMsgBody P] ↔
      writtenComments (Munge P clock ctxs obj) ≠ [] := by
  constructor
  · intro h
    rw [h]
    simp
  · intro h
    rw [Munge_eq_retrigger_of_written P clock ctxs obj h, writtenComments_retrigger]

/-- C14. First stale wins. For a pull request that passes all five gates, `Munge` posts the
comment if and only if there is an index `i` such that the context at `i` has a known status
time older than 96 hours and every context before `i` has a known status time not older than
96 hours. Consequently the contexts after the first stale one are not consulted: for any other
list and snapshot that pass the gates and agree with these up to index `i` (the later
contexts changed, removed, or their status times made unknown), `Munge` posts the same
comment. -/
theorem first_stale_wins (P : Package) (clock : Nat → Time)
    (requiredContexts : List String) (obj : MungeObject)
    (hg : PassesGates P requiredContexts obj) :
    (writtenComments (Munge P clock requiredContexts obj) = [greenMsgBody P] ↔
      ∃ (i : Nat) (c : String) (t : Time), requiredContexts[i]? = some c ∧
        obj.GetStatusTime c = (some t, true) ∧
        age (clock i) t > staleGreenCIHours * Hour ∧
        ∀ (j : Nat) (d : String), j < i → requiredContexts[j]? = some d →
          ∃ u, obj.GetStatusTime d = (some u, true) ∧
            age (clock j) u ≤ staleGreenCIHours * Hour) ∧
    (∀ (i : Nat) (c : String) (t : Time), requiredContexts[i]? = some c →
      obj.GetStatusTime c = (some t, true) →
      age (clock i) t > staleGreenCIHours * Hour →
      (∀ (j : Nat) (d : String), j < i → requiredContexts[j]? = some d →
        ∃ u, obj.GetStatusTime d = (some u, true) ∧
          age (clock j) u ≤ staleGreenCIHours * Hour) →
      ∀ (otherContexts : List String) (other : MungeObject),
        PassesGates P otherContexts other →
        (∀ j, j ≤ i → otherContexts[j]? = requiredContexts[j]?) →
        (∀ (j : Nat) (d : String), j ≤ i → requiredContexts[j]? = some d →
          other.GetStatusTime d = obj.GetStatusTime d) →
        writtenComments (Munge P clock otherContexts other) =
          writtenComments (Munge P clock requiredContexts obj)) := by
  have hiff : ∀ (l : List String) (o : MungeObject), PassesGates P l o →
      (writtenComments (Munge P clock l o) = [greenMsgBody P] ↔
        ∃ (i : Nat) (c : String) (t : Time), l[i]? = some c ∧
          o.GetStatusTime c = (some t, true) ∧
          age (clock i) t > staleGreenCIHours * Hour ∧
          ∀ (j : Nat) (d : String), j < i → l[j]? = some d →
            ∃ u, o.GetStatusTime d = (some u, true) ∧
              age (clock j) u ≤ staleGreenCIHours * Hour) := by
    intro l o hp
    rw [Munge_written_iff, Munge_of_passesGates P clock l o hp, loop_posts_iff P clock l o l 0]
    simp only [zero_add]
  refine ⟨hiff requiredContexts obj hg, ?_⟩
  intro i c t hc ht hage hpre otherContexts other hg2 hlist hsame
  rw [(hiff requiredContexts obj hg).2 ⟨i, c, t, hc, ht, hage, hpre⟩]
  apply (hiff otherContexts other hg2).2
  refine ⟨i, c, t, by rw [hlist i (le_refl i), hc], by rw [hsame i c (le_refl i) hc, ht],
    hage, ?_⟩
  intro j d hj hd
  rw [hlist j (by omega)] at hd
  obtain ⟨u, hu, hle⟩ := hpre j d hj hd
  exact ⟨u, by rw [hsame j d (by omega) hd, hu], hle⟩

/-- C14 at the concrete scenario: `ci/build`, at index 0, is the first stale context, so
`Munge` posts; and it posts the same when the status time of the later context `ci/test` is
made unknown. -/
theorem first_stale_wins_witness :
    PassesGates examplePackage ["ci/build", "ci/test"] staleBuildPR ∧
    writtenComments
        (Munge examplePackage (constClock exampleNow) ["ci/build", "ci/test"] staleBuildPR)
        = [greenMsgBody examplePackage] ∧
    (singleContextPR (hoursAgo exampleNow 100)).GetStatusTime "ci/test" = (none, false) ∧
    writtenComments
        (Munge examplePackage (constClock exampleNow) ["ci/build", "ci/test"]
          (singleContextPR (hoursAgo exampleNow 100)))
        = writtenComments
          (Munge examplePackage (constClock exampleNow) ["ci/build", "ci/test"]
            staleBuildPR) :=
  ⟨⟨by decide, by decide, by decide, by decide, by decide, by decide⟩,
    (first_stale_wins examplePackage (constClock exampleNow) ["ci/build", "ci/test"]
      staleBuildPR ⟨by decide, by decide, by decide, by decide, by decide, by decide⟩).1.2
      ⟨0, "ci/build", hoursAgo exampleNow 100, by decide, by decide, by decide,
        fun j d hj _ => absurd hj (Nat.not_lt_zero j)⟩,
    by decide,
    (first_stale_wins examplePackage (constClock exampleNow) ["ci/build", "ci/test"]
      staleBuildPR ⟨by decide, by decide, by decide, by decide, by decide, by decide⟩).2
      0 "ci/build" (hoursAgo exampleNow 100) (by decide) (by decide) (by decide)
      (fun j d hj _ => absurd hj (Nat.not_lt_zero j))
      ["ci/build", "ci/test"] (singleContextPR (hoursAgo exampleNow 100))
      ⟨by decide, by decide, by decide, by decide, by decide, by decide⟩
      (fun j _ => rfl)
      (fun j d hj hd => by
        obtain rfl : j = 0 := Nat.le_zero.1 hj
        obtain rfl : "ci/build" = d := by simpa using hd
        decide)⟩

/-! ## What the decisions depend on -/

/-- The classifier reads the snapshot only through `IsStatusSuccess` of the required contexts
and `GetStatusTime` of each of them. -/
theorem commentBeforeLastCI_congr (obj other : MungeObject) (comment : IssueComment)
    (ctxs : List String)
    (hs : obj.IsStatusSuccess ctxs = other.IsStatusSuccess ctxs)
    (ht : ∀ c ∈ ctxs, obj.GetStatusTime c = other.GetStatusTime c) :
    commentBeforeLastCI obj comment ctxs = commentBeforeLastCI other comment ctxs := by
  rw [Bool.eq_iff_iff, commentBeforeLastCI_eq_true_iff, commentBeforeLastCI_eq_true_iff, hs]
  constructor
  · rintro ⟨hgreen, created, hc, hall⟩
    refine ⟨hgreen, created, hc, fun c hmem => ?_⟩
    rw [← ht c hmem]
    exact hall c hmem
  · rintro ⟨hgreen, created, hc, hall⟩
    refine ⟨hgreen, created, hc, fun c hmem => ?_⟩
    rw [ht c hmem]
    exact hall c hmem

/-- The loop depends on the clock only through the verdict, stale or not, on each known status
time: under the same verdicts, and on objects with the same status times, it ends the same
way. -/
theorem loop_congr (P : Package) (clock later : Nat → Time) (ctxs : List String)
    (obj other : MungeObject)
    (hget : ∀ c, obj.GetStatusTime c = other.GetStatusTime c) :
    ∀ (rest : List String) (k : Nat),
      (∀ (i : Nat) (c : String) (t : Time), rest[i]? = some c →
        obj.GetStatusTime c = (some t, true) →
        (age (clock (k + i)) t > staleGreenCIHours * Hour ↔
          age (later (k + i)) t > staleGreenCIHours * Hour)) →
      (Munge.loop P clock ctxs obj k rest = [] ∧ Munge.loop P later ctxs other k rest = []) ∨
      (∃ c,
        Munge.loop P clock ctxs obj k rest =
          [Event.Errorf "%d: unable to determine time %q context was set"
            [toString obj.Number, c]] ∧
        Munge.loop P later ctxs other k rest =
          [Event.Errorf "%d: unable to determine time %q context was set"
            [toString other.Number, c]]) ∨
      (Munge.loop P clock ctxs obj k rest = retrigger P ctxs obj ∧
        Munge.loop P later ctxs other k rest = retrigger P ctxs other) := by
  intro rest
  induction rest with
  | nil => intro k _; exact Or.inl ⟨rfl, rfl⟩
  | cons c rest ih =>
    intro k h
    rcases statusTime_cases obj c with ⟨t, ht⟩ | hu
    · have ht2 : other.GetStatusTime c = (some t, true) := by rw [← hget c, ht]
      have hv := h 0 c t (by simp) ht
      simp only [add_zero] at hv
      rw [loop_cons_known P clock ctxs obj k c rest t ht,
        loop_cons_known P later ctxs other k c rest t ht2]
      by_cases hs : age (clock k) t > staleGreenCIHours * Hour
      · rw [if_pos hs, if_pos (hv.1 hs)]
        exact Or.inr (Or.inr ⟨rfl, rfl⟩)
      · rw [if_neg hs, if_neg (fun h2 => hs (hv.2 h2))]
        apply ih (k + 1)
        intro i d u hd hu
        have h3 := h (i + 1) d u (by simpa using hd) hu
        rwa [show k + (i + 1) = k + 1 + i by omega] at h3
    · have hu2 : (other.GetStatusTime c).1 = none ∨ (other.GetStatusTime c).2 = false := by
        rw [← hget c]
        exact hu
      rw [loop_cons_unknown P clock ctxs obj k c rest hu,
        loop_cons_unknown P later ctxs other k c rest hu2]
      exact Or.inr (Or.inl ⟨c, rfl, rfl⟩)

/-- Objects with the same snapshot pass the same gates. -/
theorem passesGates_of_sameSnapshot (P : Package) (ctxs : List String)
    (obj other : MungeObject) (hsnap : SameSnapshot obj other)
    (hg : PassesGates P ctxs obj) : PassesGates P ctxs other :=
  ⟨by rw [← hsnap.isPR]; exact hg.isPR,
    by rw [← hsnap.hasLabel]; exact hg.approved,
    by rw [← hsnap.hasLabel]; exact hg.retestRequired,
    by rw [← hsnap.hasLabel]; exact hg.retestRequiredDocs,
    by rw [← hsnap.isMergeable]; exact hg.mergeable,
    by rw [← hsnap.isStatusSuccess]; exact hg.green⟩

/-- The relation `SameSnapshot` is symmetric. -/
theorem SameSnapshot.symm {obj other : MungeObject} (h : SameSnapshot obj other) :
    SameSnapshot other obj :=
  ⟨h.isPR.symm, fun l => (h.hasLabel l).symm, h.isMergeable.symm,
    fun cs => (h.isStatusSuccess cs).symm, fun c => (h.getStatusTime c).symm⟩

/-- Without the gates, the trace is empty. -/
theorem Munge_nil_of_not_passesGates (P : Package) (clock : Nat → Time)
    (ctxs : List String) (obj : MungeObject) (hg : ¬ PassesGates P ctxs obj) :
    Munge P clock ctxs obj = [] := by
  rcases Munge_nil_or_loop P clock ctxs obj with h0 | ⟨hp, _⟩
  · exact h0
  · exact absurd hp hg

/-- Two evaluations on objects with the same snapshot, at clock readings that give the same
verdicts, end the same way. -/
theorem Munge_congr (P : Package) (clock later : Nat → Time) (ctxs : List String)
    (obj other : MungeObject) (hsnap : SameSnapshot obj other)
    (hclock : ∀ (i : Nat) (c : String) (t : Time), ctxs[i]? = some c →
      obj.GetStatusTime c = (some t, true) →
      (age (clock i) t > staleGreenCIHours * Hour ↔
        age (later i) t > staleGreenCIHours * Hour)) :
    (Munge P clock ctxs obj = [] ∧ Munge P later ctxs other = []) ∨
    (∃ c,
      Munge P clock ctxs obj =
        [Event.Errorf "%d: unable to determine time %q context was set"
          [toString obj.Number, c]] ∧
      Munge P later ctxs other =
        [Event.Errorf "%d: unable to determine time %q context was set"
          [toString other.Number, c]]) ∨
    (Munge P clock ctxs obj = retrigger P ctxs obj ∧
      Munge P later ctxs other = retrigger P ctxs other) := by
  by_cases hg : PassesGates P ctxs obj
  · have hg2 := passesGates_of_sameSnapshot P ctxs obj other hsnap hg
    rw [Munge_of_passesGates P clock ctxs obj hg, Munge_of_passesGates P later ctxs other hg2]
    apply loop_congr P clock later ctxs obj other hsnap.getStatusTime
    intro i c t hc ht
    simp only [zero_add]
    exact hclock i c t hc ht
  · have hg2 : ¬ PassesGates P ctxs other := fun h =>
      hg (passesGates_of_sameSnapshot P ctxs other obj hsnap.symm h)
    exact Or.inl ⟨Munge_nil_of_not_passesGates P clock ctxs obj hg,
      Munge_nil_of_not_passesGates P later ctxs other hg2⟩

/-- C15, as stated, fails for `Munge`: two evaluations on the same snapshot, one second apart,
differ. With the single required context set exactly 96 hours before the first evaluation,
the first evaluation writes nothing and the second one writes the comment. -/
theorem munge_depends_on_clock_counterexample :
    writtenComments
        (Munge examplePackage (constClock exampleNow) ["ci/build"]
          (singleContextPR (hoursAgo exampleNow 96))) = [] ∧
    writtenComments
        (Munge examplePackage (constClock (exampleNow.Add (1 * Second))) ["ci/build"]
          (singleContextPR (hoursAgo exampleNow 96))) = [greenMsgBody examplePackage] :=
  ⟨by decide, by decide⟩

/-- C15, amended. The decision of the classifier is a function of the snapshot and the comment:
on two objects with the same snapshot, `isStaleIssueComment` gives the same result for every
comment, whatever else differs between the two runs (it reads no clock). The decision of
`Munge` depends on the snapshot and, through `time.Since`, on the clock. Provided the clock
readings of two runs put every known status time on the same side of the 96-hour threshold:
two evaluations on the same object have the same whole trace; and two evaluations on objects
with the same snapshot, on which `WriteComment` succeeds in both runs or fails in both, make
the same calls of `WriteComment` and the same calls of `WaitForPending`. -/
theorem decisions_depend_on_snapshot_and_clock (P : Package) (clock later : Nat → Time)
    (requiredContexts : List String) (obj : MungeObject)
    (hclock : ∀ (i : Nat) (c : String) (t : Time), requiredContexts[i]? = some c →
      obj.GetStatusTime c = (some t, true) →
      (age (clock i) t > staleGreenCIHours * Hour ↔
        age (later i) t > staleGreenCIHours * Hour)) :
    Munge P clock requiredContexts obj = Munge P later requiredContexts obj ∧
    (∀ other, SameSnapshot obj other →
      (obj.WriteComment (greenMsgBody P) = none ↔
        other.WriteComment (greenMsgBody P) = none) →
      writtenComments (Munge P clock requiredContexts obj) =
          writtenComments (Munge P later requiredContexts other) ∧
        pendingWaits (Munge P clock requiredContexts obj) =
          pendingWaits (Munge P later requiredContexts other)) ∧
    (∀ other, SameSnapshot obj other →
      ∀ comment, isStaleIssueComment P requiredContexts obj comment =
        isStaleIssueComment P requiredContexts other comment) := by
  refine ⟨?_, ?_, ?_⟩
  · rcases Munge_congr P clock later requiredContexts obj obj
        ⟨rfl, fun _ => rfl, rfl, fun _ => rfl, fun _ => rfl⟩ hclock
      with ⟨h1, h2⟩ | ⟨c, h1, h2⟩ | ⟨h1, h2⟩ <;> rw [h1, h2]
  · intro other hsnap hwrite
    rcases Munge_congr P clock later requiredContexts obj other hsnap hclock
      with ⟨h1, h2⟩ | ⟨c, h1, h2⟩ | ⟨h1, h2⟩
    · rw [h1, h2]
      exact ⟨rfl, rfl⟩
    · rw [h1, h2]
      exact ⟨rfl, rfl⟩
    · rw [h1, h2, writtenComments_retrigger, writtenComments_retrigger,
        pendingWaits_retrigger, pendingWaits_retrigger]
      refine ⟨rfl, ?_⟩
      by_cases hw : obj.WriteComment (greenMsgBody P) = none
      · rw [if_pos hw, if_pos (hwrite.1 hw)]
      · rw [if_neg hw, if_neg (fun h => hw (hwrite.2 h))]
  · intro other hsnap comment
    unfold isStaleIssueComment
    rw [commentBeforeLastCI_congr obj other comment requiredContexts
      (hsnap.isStatusSuccess requiredContexts) (fun c _ => hsnap.getStatusTime c)]

/-- C15, amended, at the concrete scenario, evaluated twice one hour apart (`ci/build` is
stale and `ci/test` is fresh at both instants): the trace is the same; on the same snapshot
with a failing wait the calls of `WriteComment` and `WaitForPending` are the same; and on the
same snapshot with a failing post the classifier gives the same results. -/
theorem decisions_depend_on_snapshot_and_clock_witness :
    (∀ (i : Nat) (c : String) (t : Time), ["ci/build", "ci/test"][i]? = some c →
      staleBuildPR.GetStatusTime c = (some t, true) →
      (age (constClock exampleNow i) t > staleGreenCIHours * Hour ↔
        age (constClock (exampleNow.Add Hour) i) t > staleGreenCIHours * Hour)) ∧
    Munge examplePackage (constClock exampleNow) ["ci/build", "ci/test"] staleBuildPR =
      Munge examplePackage (constClock (exampleNow.Add Hour)) ["ci/build", "ci/test"]
        staleBuildPR ∧
    (SameSnapshot staleBuildPR failingWaitPR ∧
      (staleBuildPR.WriteComment (greenMsgBody examplePackage) = none ↔
        failingWaitPR.WriteComment (greenMsgBody examplePackage) = none) ∧
      writtenComments
          (Munge examplePackage (constClock exampleNow) ["ci/build", "ci/test"] staleBuildPR) =
        writtenComments
          (Munge examplePackage (constClock (exampleNow.Add Hour)) ["ci/build", "ci/test"]
            failingWaitPR) ∧
      pendingWaits
          (Munge examplePackage (constClock exampleNow) ["ci/build", "ci/test"] staleBuildPR) =
        pendingWaits
          (Munge examplePackage (constClock (exampleNow.Add Hour)) ["ci/build", "ci/test"]
            failingWaitPR)) ∧
    (SameSnapshot staleBuildPR failingWritePR ∧
      ∀ comment,
        isStaleIssueComment examplePackage ["ci/build", "ci/test"] staleBuildPR comment =
          isStaleIssueComment examplePackage ["ci/build", "ci/test"] failingWritePR comment) :=
  have hwait : SameSnapshot staleBuildPR failingWaitPR :=
    ⟨rfl, fun _ => rfl, rfl, fun _ => rfl, fun _ => rfl⟩
  have hwrite : SameSnapshot staleBuildPR failingWritePR :=
    ⟨rfl, fun _ => rfl, rfl, fun _ => rfl, fun _ => rfl⟩
  have hclock : ∀ (i : Nat) (c : String) (t : Time), ["ci/build", "ci/test"][i]? = some c →
      staleBuildPR.GetStatusTime c = (some t, true) →
      (age (constClock exampleNow i) t > staleGreenCIHours * Hour ↔
        age (constClock (exampleNow.Add Hour) i) t > staleGreenCIHours * Hour) := by
    intro i c t hc ht
    match i, hc with
    | 0, hc =>
      obtain rfl : "ci/build" = c := by simpa using hc
      obtain rfl : hoursAgo exampleNow 100 = t := by
        have h2 : staleBuildPR.GetStatusTime "ci/build"
            = (some (hoursAgo exampleNow 100), true) := by decide
        rw [h2] at ht
        simpa using ht
      exact ⟨fun _ => by decide, fun _ => by decide⟩
    | 1, hc =>
      obtain rfl : "ci/test" = c := by simpa using hc
      obtain rfl : hoursAgo exampleNow 2 = t := by
        have h2 : staleBuildPR.GetStatusTime "ci/test"
            = (some (hoursAgo exampleNow 2), true) := by decide
        rw [h2] at ht
        simpa using ht
      exact ⟨fun h => absurd h (by decide), fun h => absurd h (by decide)⟩
    | n + 2, hc => simp at hc
  have h := decisions_depend_on_snapshot_and_clock examplePackage (constClock exampleNow)
    (constClock (exampleNow.Add Hour)) ["ci/build", "ci/test"] staleBuildPR hclock
  ⟨hclock, h.1,
    ⟨hwait, by decide, h.2.1 failingWaitPR hwait (by decide)⟩,
    ⟨hwrite, h.2.2 failingWritePR hwrite⟩⟩

/-! ## The empty list of required contexts -/

/-- C16. With an empty list of required contexts, `Munge` never writes a comment and never
waits, on any snapshot and at any clock (even when all gates pass); whereas
`commentBeforeLastCI` returns true for every comment that has a creation time, provided
`IsStatusSuccess` of the empty list is known-true, so that every such comment of the bot with
the canonical body is classified stale, whatever the status times. -/
theorem empty_required_contexts (P : Package) (clock : Nat → Time) (obj : MungeObject) :
    (writtenComments (Munge P clock [] obj) = [] ∧
      pendingWaits (Munge P clock [] obj) = []) ∧
    (∀ (comment : IssueComment) (created : Time),
      obj.IsStatusSuccess [] = (true, true) → comment.CreatedAt = some created →
      commentBeforeLastCI obj comment [] = true ∧
        (P.mergeBotComment comment = true → comment.Body = some (greenMsgBody P) →
          isStaleIssueComment P [] obj comment = some true)) := by
  have hm : Munge P clock [] obj = [] := by
    rcases Munge_nil_or_loop P clock [] obj with h0 | ⟨_, hl⟩
    · exact h0
    · rw [hl]
      rfl
  rw [hm]
  refine ⟨⟨rfl, rfl⟩, ?_⟩
  intro comment created hgreen hcreated
  have hcb : commentBeforeLastCI obj comment [] = true := by
    rw [commentBeforeLastCI_eq_true_iff]
    exact ⟨hgreen, created, hcreated, fun c hc => absurd hc (List.not_mem_nil c)⟩
  refine ⟨hcb, ?_⟩
  intro hbot hbody
  rw [isStaleIssueComment_of_bot P [] obj comment _ hbot hbody, hcb]
  simp

/-- C16 at an approved, mergeable, green pull request whose only status is 100 hours old, and
a bot comment created 1000 hours after that status: all gates pass and nothing is written;
the comment is classified stale. -/
theorem empty_required_contexts_witness :
    PassesGates examplePackage [] (singleContextPR (hoursAgo exampleNow 100)) ∧
    (writtenComments
        (Munge examplePackage (constClock exampleNow) []
          (singleContextPR (hoursAgo exampleNow 100))) = [] ∧
      pendingWaits
        (Munge examplePackage (constClock exampleNow) []
          (singleContextPR (hoursAgo exampleNow 100))) = []) ∧
    (singleContextPR (hoursAgo exampleNow 100)).IsStatusSuccess [] = (true, true) ∧
    (botComment (exampleNow.Add (900 * Hour))).CreatedAt
      = some (exampleNow.Add (900 * Hour)) ∧
    examplePackage.mergeBotComment (botComment (exampleNow.Add (900 * Hour))) = true ∧
    (botComment (exampleNow.Add (900 * Hour))).Body = some (greenMsgBody examplePackage) ∧
    commentBeforeLastCI (singleContextPR (hoursAgo exampleNow 100))
      (botComment (exampleNow.Add (900 * Hour))) [] = true ∧
    isStaleIssueComment examplePackage [] (singleContextPR (hoursAgo exampleNow 100))
      (botComment (exampleNow.Add (900 * Hour))) = some true :=
  have h := empty_required_contexts examplePackage (constClock exampleNow)
    (singleContextPR (hoursAgo exampleNow 100))
  have h2 := h.2 (botComment (exampleNow.Add (900 * Hour))) (exampleNow.Add (900 * Hour))
    (by decide) rfl
  ⟨⟨by decide, by decide, by decide, by decide, by decide, by decide⟩,
    h.1, by decide, rfl, by decide, rfl, h2.1, h2.2 (by decide) rfl⟩

/-! ## The classifier and the gates -/

/-- C17. The classifier ignores the gates of the evaluator: on two snapshots that agree on
`IsStatusSuccess` of the required contexts and on `GetStatusTime` of every required context,
and differ arbitrarily otherwise (`IsPR`, labels, mergeability), `commentBeforeLastCI` returns
the same result for every comment. -/
theorem classifier_ignores_gates (obj other : MungeObject) (comment : IssueComment)
    (requiredContexts : List String)
    (hs : obj.IsStatusSuccess requiredContexts = other.IsStatusSuccess requiredContexts)
    (ht : ∀ c ∈ requiredContexts, obj.GetStatusTime c = other.GetStatusTime c) :
    commentBeforeLastCI obj comment requiredContexts =
      commentBeforeLastCI other comment requiredContexts :=
  commentBeforeLastCI_congr obj other comment requiredContexts hs ht

/-- C17 at an approved pull request and an object with the same statuses that is not a pull
request, has an opt-out label and no approval, and is not mergeable: the comment created one
hour before the status is stale on both. -/
theorem classifier_ignores_gates_witness :
    (singleContextPR exampleNow).IsStatusSuccess ["ci/build"]
      = (ineligibleObject exampleNow).IsStatusSuccess ["ci/build"] ∧
    (∀ c ∈ ["ci/build"], (singleContextPR exampleNow).GetStatusTime c
      = (ineligibleObject exampleNow).GetStatusTime c) ∧
    (singleContextPR exampleNow).IsPR ≠ (ineligibleObject exampleNow).IsPR ∧
    (singleContextPR exampleNow).IsMergeable ≠ (ineligibleObject exampleNow).IsMergeable ∧
    commentBeforeLastCI (ineligibleObject exampleNow) (botComment (hoursAgo exampleNow 1))
      ["ci/build"] = true ∧
    commentBeforeLastCI (singleContextPR exampleNow) (botComment (hoursAgo exampleNow 1))
        ["ci/build"] =
      commentBeforeLastCI (ineligibleObject exampleNow) (botComment (hoursAgo exampleNow 1))
        ["ci/build"] :=
  ⟨rfl, fun _ _ => rfl, by decide, by decide, by decide,
    classifier_ignores_gates (singleContextPR exampleNow) (ineligibleObject exampleNow)
      (botComment (hoursAgo exampleNow 1)) ["ci/build"] rfl (fun _ _ => rfl)⟩

/-! ## Monotonicity -/

/-- The loop posts as soon as some context is known and stale and all the contexts before it
are known, fresh or not. -/
theorem loop_posts_of_known_prefix (P : Package) (clock : Nat → Time) (ctxs : List String)
    (obj : MungeObject) :
    ∀ (rest : List String) (k i : Nat) (c : String) (t : Time),
      rest[i]? = some c → obj.GetStatusTime c = (some t, true) →
      age (clock (k + i)) t > staleGreenCIHours * Hour →
      (∀ (j : Nat) (d : String), j < i → rest[j]? = some d →
        ∃ u, obj.GetStatusTime d = (some u, true)) →
      writtenComments (Munge.loop P clock ctxs obj k rest) = [greenMsgBody P] := by
  intro rest
  induction rest with
  | nil => intro k i c t hc; simp at hc
  | cons e rest ih =>
    intro k i c t hc ht hage hpre
    cases i with
    | zero =>
      obtain rfl : e = c := by simpa using hc
      rw [loop_cons_known P clock ctxs obj k e rest t ht, if_pos (by simpa using hage),
        writtenComments_retrigger]
    | succ i =>
      obtain ⟨u, hu⟩ := hpre 0 e (by omega) (by simp)
      rw [loop_cons_known P clock ctxs obj k e rest u hu]
      by_cases hs : age (clock k) u > staleGreenCIHours * Hour
      · rw [if_pos hs, writtenComments_retrigger]
      · rw [if_neg hs]
        apply ih (k + 1) i c t (by simpa using hc) ht
          (by rwa [show k + 1 + i = k + (i + 1) by omega])
        intro j d hj hd
        exact hpre (j + 1) d (by omega) (by simpa using hd)

/-- C18. Monotonicity of the evaluator in time: on a fixed snapshot and list of required
contexts, if `Munge` posts the comment when evaluated at some clock readings, it also posts it
when evaluated at later (or equal) readings. -/
theorem retest_monotone_in_time (P : Package) (clock later : Nat → Time)
    (requiredContexts : List String) (obj : MungeObject)
    (hposts : writtenComments (Munge P clock requiredContexts obj) ≠ [])
    (hlater : ∀ i, (clock i).ns ≤ (later i).ns) :
    writtenComments (Munge P later requiredContexts obj) = [greenMsgBody P] := by
  rcases Munge_nil_or_loop P clock requiredContexts obj with h0 | ⟨hg, hl⟩
  · rw [h0] at hposts
    exact absurd rfl hposts
  · rw [hl] at hposts
    obtain ⟨i, c, t, hc, ht, hage, hpre⟩ :=
      (loop_posts_iff P clock requiredContexts obj requiredContexts 0).1 hposts
    rw [Munge_of_passesGates P later requiredContexts obj hg]
    apply loop_posts_of_known_prefix P later requiredContexts obj requiredContexts 0 i c t hc ht
    · have h := hlater (0 + i)
      unfold age at hage ⊢
      omega
    · intro j d hj hd
      obtain ⟨u, hu, _⟩ := hpre j d hj hd
      exact ⟨u, hu⟩

/-- C18 at the contexts `ci/test` (2 hours old) and `ci/build` (100 hours old), in this order:
`Munge` posts because of `ci/build`, and 100 hours later it posts again, now because of
`ci/test`. -/
theorem retest_monotone_in_time_witness :
    writtenComments
        (Munge examplePackage (constClock exampleNow) ["ci/test", "ci/build"] staleBuildPR)
        ≠ [] ∧
    (∀ i, (constClock exampleNow i).ns ≤ (constClock (exampleNow.Add (100 * Hour)) i).ns) ∧
    writtenComments
        (Munge examplePackage (constClock (exampleNow.Add (100 * Hour)))
          ["ci/test", "ci/build"] staleBuildPR)
        = [greenMsgBody examplePackage] :=
  ⟨by decide,
    fun _ => show exampleNow.ns ≤ (exampleNow.Add (100 * Hour)).ns from by decide,
    retest_monotone_in_time examplePackage (constClock exampleNow)
      (constClock (exampleNow.Add (100 * Hour))) ["ci/test", "ci/build"] staleBuildPR
      (by decide)
      (fun _ => show exampleNow.ns ≤ (exampleNow.Add (100 * Hour)).ns from by decide)⟩

/-- An earlier comment is stale whenever a later one is. -/
theorem commentBeforeLastCI_earlier (obj : MungeObject) (ctxs : List String)
    (comment earlier : IssueComment) (c e : Time)
    (hc : comment.CreatedAt = some c) (he : earlier.CreatedAt = some e)
    (hle : e.ns ≤ c.ns) (h : commentBeforeLastCI obj comment ctxs = true) :
    commentBeforeLastCI obj earlier ctxs = true := by
  rw [commentBeforeLastCI_eq_true_iff] at h ⊢
  obtain ⟨hgreen, created, hcr, hall⟩ := h
  rw [hc] at hcr
  cases hcr
  refine ⟨hgreen, e, he, fun x hx => ?_⟩
  obtain ⟨t, ht, hbound⟩ := hall x hx
  exact ⟨t, ht, le_trans hle hbound⟩

/-- C19. Anti-monotonicity of the classifier in the creation time of the comment, on a fixed
snapshot and list of required contexts. First: if `commentBeforeLastCI` returns true for a
comment created at `c`, it returns true for every comment created at some `c'` with `c' ≤ c`.
Second, independently: if it returns false for a comment created at `c` (because of the time
comparison, or for any other reason), it returns false for every comment created at some
`c'` with `c ≤ c'`. -/
theorem classifier_antitone_in_creation_time (obj : MungeObject)
    (requiredContexts : List String) :
    (∀ (comment earlier : IssueComment) (c c' : Time),
      comment.CreatedAt = some c → earlier.CreatedAt = some c' → c'.ns ≤ c.ns →
      commentBeforeLastCI obj comment requiredContexts = true →
      commentBeforeLastCI obj earlier requiredContexts = true) ∧
    (∀ (comment later : IssueComment) (c c' : Time),
      comment.CreatedAt = some c → later.CreatedAt = some c' → c.ns ≤ c'.ns →
      commentBeforeLastCI obj comment requiredContexts = false →
      commentBeforeLastCI obj later requiredContexts = false) := by
  constructor
  · intro comment earlier c c' hc hc' hle htrue
    exact commentBeforeLastCI_earlier obj requiredContexts comment earlier c c' hc hc' hle htrue
  · intro comment later c c' hc hc' hle hfalse
    rw [← Bool.not_eq_true]
    intro h
    rw [commentBeforeLastCI_earlier obj requiredContexts later comment c' c hc' hc hle h]
      at hfalse
    cases hfalse

/-- C19 at concrete inputs. First half, on the single required context `ci/build`: the comment
created exactly 30 minutes after the status is stale, and so is the one created with the
status. Second half, on a snapshot where no comment can be stale because the status time of
`ci/test` is unknown: the comment created 30 minutes and one second after the status of
`ci/build` is rejected by the time comparison, and so is the one created an hour after that
status. -/
theorem classifier_antitone_in_creation_time_witness :
    ((botComment (exampleNow.Add (30 * Minute))).CreatedAt
        = some (exampleNow.Add (30 * Minute)) ∧
      (botComment exampleNow).CreatedAt = some exampleNow ∧
      exampleNow.ns ≤ (exampleNow.Add (30 * Minute)).ns ∧
      commentBeforeLastCI (singleContextPR exampleNow)
        (botComment (exampleNow.Add (30 * Minute))) ["ci/build"] = true ∧
      commentBeforeLastCI (singleContextPR exampleNow) (botComment exampleNow) ["ci/build"]
        = true) ∧
    ((botComment (exampleNow.Add (30 * Minute + 1 * Second))).CreatedAt
        = some (exampleNow.Add (30 * Minute + 1 * Second)) ∧
      (botComment (exampleNow.Add Hour)).CreatedAt = some (exampleNow.Add Hour) ∧
      (exampleNow.Add (30 * Minute + 1 * Second)).ns ≤ (exampleNow.Add Hour).ns ∧
      unknownTestPR.GetStatusTime "ci/build" = (some exampleNow, true) ∧
      commentBeforeLastCI unknownTestPR
        (botComment (exampleNow.Add (30 * Minute + 1 * Second))) ["ci/build", "ci/test"]
        = false ∧
      commentBeforeLastCI unknownTestPR (botComment (exampleNow.Add Hour))
        ["ci/build", "ci/test"] = false) :=
  ⟨⟨rfl, rfl, by decide, by decide,
      (classifier_antitone_in_creation_time (singleContextPR exampleNow) ["ci/build"]).1
        (botComment (exampleNow.Add (30 * Minute))) (botComment exampleNow)
        (exampleNow.Add (30 * Minute)) exampleNow rfl rfl (by decide) (by decide)⟩,
    ⟨rfl, rfl, by decide, by decide, by decide,
      (classifier_antitone_in_creation_time unknownTestPR ["ci/build", "ci/test"]).2
        (botComment (exampleNow.Add (30 * Minute + 1 * Second)))
        (botComment (exampleNow.Add Hour))
        (exampleNow.Add (30 * Minute + 1 * Second)) (exampleNow.Add Hour)
        rfl rfl (by decide) (by decide)⟩⟩

end Mungers
